import Mathlib

/-!
# Grappa worker substrate (`system/Worker.cpp`)

A shallow embedding of the coroutine/worker lifecycle code: the debugging
registry (`insert_coro`, `remove_coro`), `convert_to_master`, `coro_spawn`,
`worker_spawn`, `destroy_coro`, `destroy_thread` and `checked_mprotect`.

Worker objects live in a heap split by field and indexed by address; the globals
`all_coros`, `total_coros` and `current_stack_offset` are fields of the
program state.  Calls that leave the translation unit (the shared-memory
arena, `mprotect`, `makestack`, `coro_invoke`, the scheduler, ...) are
recorded in a chronological trace, and their answers are supplied by an
environment that may inspect the whole history of such calls.  `size_t`
arithmetic is taken modulo `2 ^ 64`.

The build is modelled with `GRAPPA_TRACE` undefined; the other conditional
compilation switches are fields of the environment.
-/

namespace Grappa

/-- Machine address; `0` is the null pointer. -/
abbrev Ptr := Nat

/-- Number of values of a `size_t` / pointer (64-bit target). -/
def WORD : Nat := 2 ^ 64

/-- Protection bits of `<sys/mman.h>` as used by `Worker.cpp`. -/
def PROT_NONE : Nat := 0

/-- Protection bit `PROT_READ`. -/
def PROT_READ : Nat := 1

/-- Protection bit `PROT_WRITE`. -/
def PROT_WRITE : Nat := 2

/-- Modelled from the spec: the worker control blocks (`Worker`, declared in
`Worker.hpp`, absent from the sources at hand).  Memory is split by field: for
each field that `Worker.cpp` reads or writes there is one map from the address
of a worker object to the value of that field in it. -/
structure Workers where
  running : Ptr → Nat
  suspended : Ptr → Nat
  idle : Ptr → Nat
  base : Ptr → Ptr
  ssize : Ptr → Nat
  stack : Ptr → Ptr
  valgrind_stack_id : Ptr → Int
  tracking_prev : Ptr → Ptr
  tracking_next : Ptr → Ptr
  sched : Ptr → Ptr
  next : Ptr → Ptr
  id : Ptr → Nat
  done : Ptr → Bool

/-- Modelled from the spec: the part of a `Scheduler` (declared in
`Scheduler.hpp`, absent) that `worker_spawn` consumes: the identity of the
running worker and the counter from which `assignTid` hands out ids. -/
structure Scheduler where
  current_thread : Ptr
  nextId : Nat
deriving DecidableEq

/-- Calls that leave `Worker.cpp`, in the order they are made. -/
inductive Event where
  | new_Worker (p : Ptr)
  | posix_memalign (p : Ptr) (alignment size : Nat)
  | free (p : Ptr)
  | assignTid (sched thr : Ptr)
  | allocate_aligned (size alignment : Nat) (r : Ptr)
  | deallocate (r : Ptr)
  | memset (addr : Ptr) (byte len : Nat)
  | mprotect (addr : Ptr) (len prot : Nat)
  | valgrind_stack_register (lo hi : Ptr)
  | valgrind_stack_deregister (id : Int)
  | makestack (me c : Ptr) (sp : Ptr) (f it : Ptr)
  | coro_invoke (me c : Ptr) (val : Ptr)
deriving DecidableEq

/-- Reasons for which the process terminates instead of returning. -/
inductive Fatal where
  | head_has_prev
  | invalid_worker
  | null_base
  | mprotect_failed
  | parent_mismatch
  | assert_failed
  | bad_alloc
  | null_store
deriving DecidableEq

/-- Everything outside `Worker.cpp`: configuration flags, conditional
compilation switches, and the answers of external calls as functions of the
history of external calls made so far. -/
structure Env where
  FLAGS_stack_size : Int
  FLAGS_stack_offset : Int
  GUARD_PAGES_ON_STACK : Bool
  CORO_PROTECT_UNUSED_STACK : Bool
  ENABLE_VALGRIND : Bool
  sizeof_Worker : Nat
  tramp : Ptr
  new_Worker : List Event → Ptr
  posix_memalign : List Event → Nat → Nat → Ptr
  allocate_aligned : List Event → Nat → Nat → Ptr
  mprotect : List Event → Ptr → Nat → Nat → Int
  valgrind_stack_register : List Event → Ptr → Ptr → Int
  makestack : List Event → Ptr → Ptr → Ptr → Ptr → Ptr × Ptr
  swapstacks : List Event → Ptr → Ptr → Ptr → Ptr × Ptr

/-- Program state: the worker objects, the schedulers, the three globals of
`Worker.cpp` and the trace of external calls. -/
structure State where
  w : Workers
  scheds : Ptr → Scheduler
  all_coros : Ptr
  total_coros : Nat
  current_stack_offset : Nat
  trace : List Event

/-- Result of running a piece of code: it returns, or the process dies. -/
inductive Outcome (α : Type) where
  | ok (s : State) (a : α)
  | fatal (s : State) (why : Fatal)

/-- State in which the code returned or died. -/
def Outcome.state {α : Type} : Outcome α → State
  | .ok s _ => s
  | .fatal s _ => s

/-- Diagnostic with which the process died, when it died. -/
def Outcome.why {α : Type} : Outcome α → Option Fatal
  | .ok _ _ => none
  | .fatal _ w => some w

/-- Whether the code returned. -/
def Outcome.isOk {α : Type} : Outcome α → Bool
  | .ok _ _ => true
  | .fatal _ _ => false

/-- Computations over the program state that may terminate the process. -/
def M (α : Type) : Type := State → Outcome α

/-- Return a value without touching the state. -/
def M.pure {α : Type} (a : α) : M α := fun s => .ok s a

/-- Sequencing; a fatal outcome stops everything after it. -/
def M.bind {α β : Type} (x : M α) (f : α → M β) : M β := fun s =>
  match x s with
  | .ok s1 a => f a s1
  | .fatal s1 why => .fatal s1 why

instance : Monad M where
  pure := M.pure
  bind := M.bind

/-- Terminate the process. -/
def die {α : Type} (why : Fatal) : M α := fun s => .fatal s why

/-- The glog `CHECK`: terminate unless the condition holds. -/
def CHECK (cond : Bool) (why : Fatal) : M Unit := fun s =>
  if cond then .ok s () else .fatal s why

/-- Read the whole state. -/
def getState : M State := fun s => .ok s s

/-- Rewrite the state (a store). -/
def update (f : State → State) : M Unit := fun s => .ok (f s) ()

/-- The store `p->running = v`. -/
def store_running (p : Ptr) (v : Nat) : M Unit :=
  update fun s => { s with w := { s.w with running := Function.update s.w.running p v } }

/-- The store `p->suspended = v`. -/
def store_suspended (p : Ptr) (v : Nat) : M Unit :=
  update fun s => { s with w := { s.w with suspended := Function.update s.w.suspended p v } }

/-- The store `p->idle = v`. -/
def store_idle (p : Ptr) (v : Nat) : M Unit :=
  update fun s => { s with w := { s.w with idle := Function.update s.w.idle p v } }

/-- The store `p->base = v`. -/
def store_base (p : Ptr) (v : Ptr) : M Unit :=
  update fun s => { s with w := { s.w with base := Function.update s.w.base p v } }

/-- The store `p->ssize = v`. -/
def store_ssize (p : Ptr) (v : Nat) : M Unit :=
  update fun s => { s with w := { s.w with ssize := Function.update s.w.ssize p v } }

/-- The store `p->stack = v`. -/
def store_stack (p : Ptr) (v : Ptr) : M Unit :=
  update fun s => { s with w := { s.w with stack := Function.update s.w.stack p v } }

/-- The store `p->valgrind_stack_id = v`. -/
def store_valgrind_stack_id (p : Ptr) (v : Int) : M Unit :=
  update fun s => { s with w := { s.w with valgrind_stack_id := Function.update s.w.valgrind_stack_id p v } }

/-- The store `p->tracking_prev = v`. -/
def store_tracking_prev (p : Ptr) (v : Ptr) : M Unit :=
  update fun s => { s with w := { s.w with tracking_prev := Function.update s.w.tracking_prev p v } }

/-- The store `p->tracking_next = v`. -/
def store_tracking_next (p : Ptr) (v : Ptr) : M Unit :=
  update fun s => { s with w := { s.w with tracking_next := Function.update s.w.tracking_next p v } }

/-- The store `p->sched = v`. -/
def store_sched (p : Ptr) (v : Ptr) : M Unit :=
  update fun s => { s with w := { s.w with sched := Function.update s.w.sched p v } }

/-- The store `p->next = v`. -/
def store_next (p : Ptr) (v : Ptr) : M Unit :=
  update fun s => { s with w := { s.w with next := Function.update s.w.next p v } }

/-- The store `p->id = v`. -/
def store_id (p : Ptr) (v : Nat) : M Unit :=
  update fun s => { s with w := { s.w with id := Function.update s.w.id p v } }

/-- The store `p->done = v`. -/
def store_done (p : Ptr) (v : Bool) : M Unit :=
  update fun s => { s with w := { s.w with done := Function.update s.w.done p v } }

/-- Update fields of a scheduler object in place. -/
def setSched (p : Ptr) (f : Scheduler → Scheduler) : M Unit := fun s =>
  .ok { s with scheds := Function.update s.scheds p (f (s.scheds p)) } ()

/-- Record an external call. -/
def emit (e : Event) : M Unit := fun s =>
  .ok { s with trace := s.trace ++ [e] } ()

/-- Pointer plus byte count, modulo the address space. -/
def padd (p : Ptr) (n : Nat) : Ptr := (p + n) % WORD

/-- Pointer minus byte count, modulo the address space. -/
def psub (p : Ptr) (n : Nat) : Ptr := (p + (WORD - n % WORD)) % WORD

/-- Conversion of a signed flag value to `size_t`. -/
def to_size_t (i : Int) : Nat := (i % (WORD : Int)).toNat

/-! ## External collaborators -/

/-- Modelled from the spec: `new Worker()`; the address comes from the
environment, a null answer stands for `std::bad_alloc`. -/
def new_Worker (env : Env) : M Ptr := do
  let s ← getState
  let p := env.new_Worker s.trace
  emit (.new_Worker p)
  if p = 0 then die .bad_alloc else pure p

/-- Modelled from the spec: `posix_memalign(&thr, alignment, size)`; yields
the pointer left in `thr` (null when the call fails). -/
def posix_memalign (env : Env) (alignment size : Nat) : M Ptr := do
  let s ← getState
  let p := env.posix_memalign s.trace alignment size
  emit (.posix_memalign p alignment size)
  pure p

/-- Modelled from the spec: `locale_shared_memory.allocate_aligned`. -/
def allocate_aligned (env : Env) (size alignment : Nat) : M Ptr := do
  let s ← getState
  let r := env.allocate_aligned s.trace size alignment
  emit (.allocate_aligned size alignment r)
  pure r

/-- Modelled from the spec: `locale_shared_memory.deallocate`. -/
def deallocate (r : Ptr) : M Unit := emit (.deallocate r)

/-- Modelled from the spec: the `mprotect` system call; yields its return
value.  The call is recorded in the trace; the protection it installs is not
part of the state, so a later store into a page left read-only is not
modelled as a fault.  Statements about a returning call in a build with
`CORO_PROTECT_UNUSED_STACK` are therefore about the calls made, not about
the page faults the hardware would raise. -/
def mprotect (env : Env) (addr : Ptr) (len prot : Nat) : M Int := do
  let s ← getState
  let r := env.mprotect s.trace addr len prot
  emit (.mprotect addr len prot)
  pure r

/-- Modelled from the spec: `Scheduler::get_current_thread`. -/
def get_current_thread (sched : Ptr) : M Ptr := fun s =>
  .ok s (s.scheds sched).current_thread

/-- Modelled from the spec: `Scheduler::assignTid`, which assigns and records
an id for a new worker. -/
def assignTid (sched thr : Ptr) : M Unit := do
  let s ← getState
  let n := (s.scheds sched).nextId
  store_id thr n
  setSched sched fun k => { k with nextId := n + 1 }
  emit (.assignTid sched thr)

/-- Modelled from the spec: `makestack(&me->stack, &c->stack, f, it)` of
`stack.h`; it may rewrite both stack slots. -/
def makestack (env : Env) (me c f it : Ptr) : M Unit := do
  let s ← getState
  let r := env.makestack s.trace (s.w.stack me) (s.w.stack c) f it
  emit (.makestack me c (s.w.stack c) f it)
  store_stack me r.1
  store_stack c r.2

/-- Modelled from the spec: `coro_invoke(me, c, val)` of `Worker.hpp`, one
switch from `me` into `c` delivering `val`; when control is back both saved
stack pointers may have moved. -/
def coro_invoke (env : Env) (me c val : Ptr) : M Unit := do
  let s ← getState
  let r := env.swapstacks s.trace (s.w.stack me) (s.w.stack c) val
  emit (.coro_invoke me c val)
  store_stack me r.1
  store_stack c r.2

/-! ## `Worker.cpp` -/

/-- Source `insert_coro`: insert a coroutine into the list of all
coroutines. -/
def insert_coro (c : Ptr) : M Unit := do
  let s ← getState
  if s.all_coros ≠ 0 then
    CHECK (s.w.tracking_prev s.all_coros = 0) .head_has_prev
    store_tracking_prev s.all_coros c
  store_tracking_next c s.all_coros
  update fun s => { s with all_coros := c }

/-- Source `remove_coro`: remove a coroutine from the list of all
coroutines. -/
def remove_coro (c : Ptr) : M Unit := do
  let s ← getState
  if s.w.tracking_prev c ≠ 0 then
    store_tracking_next (s.w.tracking_prev c) (s.w.tracking_next c)
  let s ← getState
  if s.w.tracking_next c ≠ 0 then
    store_tracking_prev (s.w.tracking_next c) (s.w.tracking_prev c)

/-- Source `checked_mprotect`. -/
def checked_mprotect (env : Env) (addr : Ptr) (len prot : Nat) : M Unit := do
  let r ← mprotect env addr len prot
  CHECK (0 = r) .mprotect_failed

/-- Source `convert_to_master`. -/
def convert_to_master (env : Env) (me0 : Ptr) : M Ptr := do
  let me ← if me0 = 0 then new_Worker env else pure me0
  store_running me 1
  store_suspended me 0
  store_idle me 0
  store_base me 0
  store_stack me 0
  if env.ENABLE_VALGRIND then
    store_valgrind_stack_id me (-1)
  store_tracking_prev me 0
  store_tracking_next me 0
  update fun s => { s with total_coros := (s.total_coros + 1) % WORD }
  insert_coro me
  store_sched me 0
  store_next me 0
  store_id me 0
  store_done me false
  if env.CORO_PROTECT_UNUSED_STACK then
    let r ← mprotect env me 4096 PROT_READ
    CHECK (0 = r) .assert_failed
  pure me

/-- Value stored in `c->stack` by the statement
`c->stack = (char*) c->base + ssize + 4096 - current_stack_offset`. -/
def initial_stack (base : Ptr) (ssize offset : Nat) : Ptr :=
  psub (padd (padd base ssize) 4096) offset

/-- Update of `current_stack_offset` in `coro_spawn`:
`+= FLAGS_stack_offset; &= (cache_line_size * num_offsets) - 1`. -/
def next_stack_offset (env : Env) (offset : Nat) : Nat :=
  ((offset + to_size_t env.FLAGS_stack_offset) % WORD) &&& (64 * 128 - 1)

/-- Source `coro_spawn`. -/
def coro_spawn (env : Env) (me c f : Ptr) (ssize : Nat) : M Unit := do
  CHECK (c ≠ 0) .invalid_worker
  store_running c 0
  store_suspended c 0
  store_idle c 0
  let r ← allocate_aligned env ((ssize + 4096 * 2) % WORD) 4096
  store_base c r
  CHECK (r ≠ 0) .null_base
  store_ssize c ssize
  let s ← getState
  store_stack c (initial_stack (s.w.base c) ssize s.current_stack_offset)
  update fun s => { s with
    current_stack_offset := next_stack_offset env s.current_stack_offset }
  store_tracking_prev c 0
  store_tracking_next c 0
  let s ← getState
  if env.ENABLE_VALGRIND then
    let id := env.valgrind_stack_register s.trace (padd (s.w.base c) 4096) (s.w.stack c)
    emit (.valgrind_stack_register (padd (s.w.base c) 4096) (s.w.stack c))
    store_valgrind_stack_id c id
  emit (.memset (s.w.base c) 0 ((ssize + 4096 * 2) % WORD))
  if env.GUARD_PAGES_ON_STACK then
    checked_mprotect env (s.w.base c) 4096 PROT_NONE
    checked_mprotect env (padd (padd (s.w.base c) ssize) 4096) 4096 PROT_NONE
  makestack env me c f c
  insert_coro c
  let s ← getState
  if env.CORO_PROTECT_UNUSED_STACK then
    checked_mprotect env (padd (s.w.base c) 4096) ssize PROT_READ
    checked_mprotect env c 4096 PROT_READ
  update fun s => { s with total_coros := (s.total_coros + 1) % WORD }

/-- Source `worker_spawn`. -/
def worker_spawn (env : Env) (me sched f arg : Ptr) : M Ptr := do
  let cur ← get_current_thread sched
  CHECK (cur = me) .parent_mismatch
  let thr ← posix_memalign env 4096 env.sizeof_Worker
  if thr = 0 then die .null_store
  store_sched thr sched
  assignTid sched thr
  coro_spawn env me thr env.tramp (to_size_t env.FLAGS_stack_size)
  coro_invoke env me thr me
  coro_invoke env me thr thr
  coro_invoke env me thr f
  coro_invoke env me thr arg
  pure thr

/-- Source `destroy_coro`. -/
def destroy_coro (env : Env) (c : Ptr) : M Unit := do
  update fun s => { s with total_coros := (s.total_coros + (WORD - 1)) % WORD }
  let s ← getState
  if env.ENABLE_VALGRIND then
    if (s.w.valgrind_stack_id c) ≠ -1 then
      emit (.valgrind_stack_deregister (s.w.valgrind_stack_id c))
  if (s.w.base c) ≠ 0 then
    checked_mprotect env (s.w.base c) 4096 (PROT_READ ||| PROT_WRITE)
    checked_mprotect env (padd (padd (s.w.base c) (s.w.ssize c)) 4096) 4096
      (PROT_READ ||| PROT_WRITE)
    if env.CORO_PROTECT_UNUSED_STACK then
      checked_mprotect env (padd (s.w.base c) 4096) (s.w.ssize c)
        (PROT_READ ||| PROT_WRITE)
      checked_mprotect env c 4096 (PROT_READ ||| PROT_WRITE)
    remove_coro c
    let s ← getState
    deallocate (s.w.base c)

/-- One call into `Worker.cpp` made by client code. -/
inductive Call where
  | convert_to_master (me : Ptr)
  | coro_spawn (me c f : Ptr) (ssize : Nat)
  | destroy_coro (c : Ptr)
deriving DecidableEq

/-- Run one call, forgetting what it returns. -/
def Call.run (env : Env) : Call → M Unit
  | .convert_to_master me => do
    let _ ← Grappa.convert_to_master env me
  | .coro_spawn me c f ssize => Grappa.coro_spawn env me c f ssize
  | .destroy_coro c => Grappa.destroy_coro env c

/-- Worker object a call acts on; for `convert_to_master(NULL)` it is the
object `new Worker()` is about to deliver. -/
def Call.target (env : Env) (s : State) : Call → Ptr
  | .convert_to_master me => if me = 0 then env.new_Worker s.trace else me
  | .coro_spawn _ c _ _ => c
  | .destroy_coro c => c

/-- Regions returned by `allocate_aligned` within a stretch of the trace. -/
def allocated : List Event → List Ptr
  | [] => []
  | .allocate_aligned _ _ r :: es => r :: allocated es
  | _ :: es => allocated es

/-- Pointers passed to `deallocate` within a stretch of the trace. -/
def deallocated : List Event → List Ptr
  | [] => []
  | .deallocate r :: es => r :: deallocated es
  | _ :: es => deallocated es

/-- Bookkeeping kept beside a run: which objects were made masters, which
were spawned, which were destroyed, which region `allocate_aligned` returned
during the spawn of each worker and which pointer `deallocate` received
during the destruction of each worker. -/
structure Book where
  masters : List Ptr
  spawned : List Ptr
  destroyed : List Ptr
  handles : List (Ptr × Ptr)
  freed : List (Ptr × Ptr)

/-- The empty book. -/
def Book.empty : Book := ⟨[], [], [], [], []⟩

/-- Every worker object created so far. -/
def Book.created (b : Book) : List Ptr := b.spawned ++ b.masters

/-- Workers spawned by `coro_spawn` and not yet destroyed. -/
def Book.live (b : Book) : List Ptr := b.spawned.filter fun c => decide (c ∉ b.destroyed)

/-- Caller-side discipline: a worker object is created once, and destroyed at
most once and only after it was created. -/
def Call.allowed (env : Env) (s : State) (b : Book) (k : Call) : Bool :=
  match k with
  | .convert_to_master _ => decide (k.target env s ∉ b.created)
  | .coro_spawn _ _ _ _ => decide (k.target env s ∉ b.created)
  | .destroy_coro c => decide (c ∈ b.created ∧ c ∉ b.destroyed)

/-- Enter a completed call in the book; `p` is the worker it acted on and
`evs` the external calls it made. -/
def Book.note (b : Book) (k : Call) (p : Ptr) (evs : List Event) : Book :=
  match k with
  | .convert_to_master _ => { b with masters := p :: b.masters }
  | .coro_spawn _ _ _ _ =>
    { b with spawned := p :: b.spawned,
             handles := (allocated evs).map (fun r => (p, r)) ++ b.handles }
  | .destroy_coro _ =>
    { b with destroyed := p :: b.destroyed,
             freed := (deallocated evs).map (fun r => (p, r)) ++ b.freed }

/-- Run a sequence of calls, each of which must be allowed and must return;
yields the final state and book. -/
def replay (env : Env) : State → Book → List Call → Option (State × Book)
  | s, b, [] => some (s, b)
  | s, b, k :: ks =>
    if k.allowed env s b then
      match k.run env s with
      | .ok s1 _ => replay env s1 (b.note k (k.target env s) (s1.trace.drop s.trace.length)) ks
      | .fatal _ _ => none
    else none

/-- State of a freshly started process: no registry, no coroutine counted,
offset zero, no external call made; the memory contents are arbitrary. -/
def State.init (w : Workers) (scheds : Ptr → Scheduler) : State :=
  { w := w, scheds := scheds, all_coros := 0, total_coros := 0,
    current_stack_offset := 0, trace := [] }

/-- Workers met from `p` along `tracking_next` until null, when that takes at
most `fuel` steps. -/
def chain (next : Ptr → Ptr) : Nat → Ptr → Option (List Ptr)
  | 0, p => if p = 0 then some [] else none
  | fuel + 1, p =>
    if p = 0 then some [] else (chain next fuel (next p)).map (p :: ·)

/-- Modelled from the spec: effect of one external call on the collection of
outstanding regions of the arena; `allocate_aligned` adds the region it
returns, `deallocate` removes the region it is given. -/
def arenaStep (out : List Ptr) : Event → List Ptr
  | .allocate_aligned _ _ r => r :: out
  | .deallocate r => out.erase r
  | _ => out

/-- Modelled from the spec: the regions outstanding after a history of
external calls. -/
def outstanding (t : List Event) : List Ptr := t.foldl arenaStep []

/-- Starting with `out` outstanding, every `deallocate` in the history names a
region outstanding at that moment. -/
def disciplinedFrom : List Ptr → List Event → Bool
  | _, [] => true
  | out, .allocate_aligned _ _ r :: es => disciplinedFrom (r :: out) es
  | out, .deallocate r :: es => decide (r ∈ out) && disciplinedFrom (out.erase r) es
  | out, _ :: es => disciplinedFrom out es

/-- Every `deallocate` in the trace names a region outstanding at that
moment: nothing is released twice, nothing is released that was not
returned by `allocate_aligned`. -/
def disciplined (t : List Event) : Bool := disciplinedFrom [] t

/-- Modelled from the spec: the arena hands out fresh regions, never one that
is still outstanding. -/
def ArenaFresh (env : Env) : Prop :=
  ∀ t size alignment, env.allocate_aligned t size alignment ∉ outstanding t

/-! ## A concrete environment -/

/-- Memory in which every field of every worker object is zero. -/
def Workers.zero : Workers :=
  { running := fun _ => 0, suspended := fun _ => 0, idle := fun _ => 0, base := fun _ => 0,
    ssize := fun _ => 0, stack := fun _ => 0, valgrind_stack_id := fun _ => 0,
    tracking_prev := fun _ => 0, tracking_next := fun _ => 0, sched := fun _ => 0,
    next := fun _ => 0, id := fun _ => 0, done := fun _ => false }

/-- Environment used for concrete runs: guard pages armed, a bump arena, and an
`mprotect` that succeeds exactly on page-aligned addresses. -/
def env0 : Env :=
  { FLAGS_stack_size := 16384, FLAGS_stack_offset := 64,
    GUARD_PAGES_ON_STACK := true, CORO_PROTECT_UNUSED_STACK := false,
    ENABLE_VALGRIND := false, sizeof_Worker := 128, tramp := 7,
    new_Worker := fun t => 1000 + t.length,
    posix_memalign := fun t _ _ => 4096 * (1000 + t.length),
    allocate_aligned := fun t _ _ => 4096 * ((outstanding t).sum + 1),
    mprotect := fun _ addr _ _ => if addr % 4096 = 0 then 0 else -1,
    valgrind_stack_register := fun t _ _ => t.length,
    makestack := fun _ a b _ _ => (a, b),
    swapstacks := fun _ a b _ => (a, b) }

/-- Initial state used for concrete runs: zeroed memory, scheduler `50` running
worker `1`. -/
def s0 : State :=
  State.init Workers.zero (fun _ => { current_thread := 1, nextId := 1 })

/-! ## Reasoning about outcomes -/

/-- Outcome-indexed predicate transformer: `Q` is what must hold where the code
returns, `F` what must hold where the process dies. -/
def wpo {α : Type} (x : M α) (Q : State → α → Prop) (F : State → Fatal → Prop)
    (s : State) : Prop :=
  match x s with
  | .ok s1 a => Q s1 a
  | .fatal s1 why => F s1 why

/-- Switches into `thr` made within a stretch of the trace: who switched and
which value was delivered, in order. -/
def switches (thr : Ptr) : List Event → List (Ptr × Ptr)
  | [] => []
  | .coro_invoke me c val :: es =>
    if c = thr then (me, val) :: switches thr es else switches thr es
  | _ :: es => switches thr es

/-- Effect of a successful `insert_coro c` on the registry: `c` becomes the
head, its `tracking_next` is the old head, the old head (when there is one)
had no `prev` and now points back to `c`, and no other link changes. -/
@[mk_iff] structure Inserted (s : State) (c : Ptr) (s1 : State) : Prop where
  head : s1.all_coros = c
  next_c : s1.w.tracking_next c = s.all_coros
  next_frame : ∀ x, x ≠ c → s1.w.tracking_next x = s.w.tracking_next x
  prev_c : s.all_coros ≠ c → s1.w.tracking_prev c = 0
  head_ok : s.all_coros ≠ 0 → s.all_coros ≠ c → s.w.tracking_prev s.all_coros = 0
  prev_head : s.all_coros ≠ 0 → s.all_coros ≠ c → s1.w.tracking_prev s.all_coros = c
  prev_frame : ∀ x, x ≠ c → x ≠ s.all_coros →
    s1.w.tracking_prev x = s.w.tracking_prev x

/-- What a returning `coro_spawn env me c f ssize` has done to state `s`. -/
@[mk_iff] structure SpawnEffect (env : Env) (s : State) (me c f : Ptr) (ssize : Nat)
    (s1 : State) : Prop where
  c_ne : c ≠ 0
  handle_ne : env.allocate_aligned s.trace ((ssize + 4096 * 2) % WORD) 4096 ≠ 0
  total : s1.total_coros = (s.total_coros + 1) % WORD
  offset : s1.current_stack_offset = next_stack_offset env s.current_stack_offset
  scheds : s1.scheds = s.scheds
  trace : s1.trace = s.trace ++ s1.trace.drop s.trace.length
  allocs : allocated (s1.trace.drop s.trace.length)
    = [env.allocate_aligned s.trace ((ssize + 4096 * 2) % WORD) 4096]
  deallocs : deallocated (s1.trace.drop s.trace.length) = []
  invokes : ∀ thr, switches thr (s1.trace.drop s.trace.length) = []
  stack_event : Event.makestack me c
      (initial_stack (env.allocate_aligned s.trace ((ssize + 4096 * 2) % WORD) 4096) ssize
        s.current_stack_offset) f c ∈ s1.trace.drop s.trace.length
  base : s1.w.base c = env.allocate_aligned s.trace ((ssize + 4096 * 2) % WORD) 4096
  base_frame : ∀ x, x ≠ c → s1.w.base x = s.w.base x
  ssize_eq : s1.w.ssize c = ssize
  inserted : Inserted s c s1

/-- What a returning `convert_to_master env me0` has done to state `s`; `p` is
the worker it returns. -/
@[mk_iff] structure MasterEffect (env : Env) (s : State) (me0 : Ptr) (s1 : State)
    (p : Ptr) : Prop where
  target : p = if me0 = 0 then env.new_Worker s.trace else me0
  fresh_ne : me0 = 0 → p ≠ 0
  total : s1.total_coros = (s.total_coros + 1) % WORD
  offset : s1.current_stack_offset = s.current_stack_offset
  scheds : s1.scheds = s.scheds
  trace : s1.trace = s.trace ++ s1.trace.drop s.trace.length
  allocs : allocated (s1.trace.drop s.trace.length) = []
  deallocs : deallocated (s1.trace.drop s.trace.length) = []
  invokes : ∀ thr, switches thr (s1.trace.drop s.trace.length) = []
  id : s1.w.id p = 0
  running : s1.w.running p = 1
  suspended : s1.w.suspended p = 0
  idle : s1.w.idle p = 0
  done : s1.w.done p = false
  base : s1.w.base p = 0
  stack : s1.w.stack p = 0
  sched : s1.w.sched p = 0
  next : s1.w.next p = 0
  base_frame : ∀ x, x ≠ p → s1.w.base x = s.w.base x
  inserted : Inserted s p s1

/-- Closed form of what `remove_coro c` does to the worker objects: the
predecessor of `c` (when `c` has one) is made to skip `c`, and so is the
successor of `c` (when `c` has one); the links of `c` itself stay. -/
def unlinked (w : Workers) (c : Ptr) : Workers :=
  { w with
    tracking_next :=
      if w.tracking_prev c = 0 then w.tracking_next
      else Function.update w.tracking_next (w.tracking_prev c) (w.tracking_next c),
    tracking_prev :=
      if w.tracking_next c = 0 then w.tracking_prev
      else Function.update w.tracking_prev (w.tracking_next c) (w.tracking_prev c) }

/-- What a returning `destroy_coro env c` has done to state `s`. -/
@[mk_iff] structure DestroyEffect (env : Env) (s : State) (c : Ptr) (s1 : State) : Prop where
  total : s1.total_coros = (s.total_coros + (WORD - 1)) % WORD
  head : s1.all_coros = s.all_coros
  offset : s1.current_stack_offset = s.current_stack_offset
  scheds : s1.scheds = s.scheds
  trace : s1.trace = s.trace ++ s1.trace.drop s.trace.length
  allocs : allocated (s1.trace.drop s.trace.length) = []
  deallocs : deallocated (s1.trace.drop s.trace.length)
    = if s.w.base c = 0 then [] else [s.w.base c]
  invokes : ∀ thr, switches thr (s1.trace.drop s.trace.length) = []
  mprotects : s.w.base c = 0 → ∀ a l p, Event.mprotect a l p ∉ s1.trace.drop s.trace.length
  disarm_low : s.w.base c ≠ 0 →
    Event.mprotect (s.w.base c) 4096 (PROT_READ ||| PROT_WRITE) ∈ s1.trace.drop s.trace.length
  disarm_high : s.w.base c ≠ 0 →
    Event.mprotect (padd (padd (s.w.base c) (s.w.ssize c)) 4096) 4096 (PROT_READ ||| PROT_WRITE)
      ∈ s1.trace.drop s.trace.length
  workers : s1.w = if s.w.base c = 0 then s.w else unlinked s.w c

/-- State reached from `s0` by `convert_to_master(1)` followed by
`coro_spawn(1, 2, 7, 4096)`: worker `1` is the master, worker `2` a spawned
worker whose `done` flag is false. -/
def s_spawned : State :=
  (coro_spawn env0 1 2 7 4096 (convert_to_master env0 1 s0).state).state

/-- Variant of `env0` whose arena is exhausted: `allocate_aligned` returns
null. -/
def env_nomem : Env := { env0 with allocate_aligned := fun _ _ _ => 0 }

/-- One worker object: the values of its fields. -/
structure Worker where
  running : Nat
  suspended : Nat
  idle : Nat
  base : Ptr
  ssize : Nat
  stack : Ptr
  valgrind_stack_id : Int
  tracking_prev : Ptr
  tracking_next : Ptr
  sched : Ptr
  next : Ptr
  id : Nat
  done : Bool
deriving DecidableEq

/-- The worker object stored at address `p`. -/
def Workers.read (w : Workers) (p : Ptr) : Worker :=
  { running := w.running p, suspended := w.suspended p, idle := w.idle p, base := w.base p,
    ssize := w.ssize p, stack := w.stack p, valgrind_stack_id := w.valgrind_stack_id p,
    tracking_prev := w.tracking_prev p, tracking_next := w.tracking_next p,
    sched := w.sched p, next := w.next p, id := w.id p, done := w.done p }

/-- Variant of `env0` with a bump arena that never reuses an address. -/
def env_bump : Env := { env0 with allocate_aligned := fun t _ _ => 4096 * (t.length + 1) }

/-- Sixty-four spawns of distinct workers (`2` to `65`), one page of usable
stack each. -/
def spawns64 : List Call := (List.range 64).map fun i => Call.coro_spawn 1 (i + 2) 7 4096

/-- State after the sixty-four spawns of `spawns64`, run from `s0` under
`env_bump`. -/
def s_after64 : State :=
  match replay env_bump s0 Book.empty spawns64 with
  | some r => r.1
  | none => s0

/-- Variant of `env0` built without `GUARD_PAGES_ON_STACK`. -/
def env_noguard : Env := { env0 with GUARD_PAGES_ON_STACK := false, FLAGS_stack_size := 100 }

/-- Modelled from the spec: `mprotect` rejects an address that is not a
multiple of the page size (the `EINVAL` case named in the diagnostic of
`checked_mprotect`). -/
def PosixMprotect (env : Env) : Prop :=
  ∀ t addr len prot, addr % 4096 ≠ 0 → env.mprotect t addr len prot ≠ 0

/-- Modelled from the spec: `allocate_aligned(size, 4096)` returns a
page-aligned region. -/
def AlignedArena (env : Env) : Prop :=
  ∀ t size, env.allocate_aligned t size 4096 % 4096 = 0

/-- Invariant of the registry links over the worker objects created so far:
no created object is null, the head is null or created, `tracking_next` of a
created object is null or created and never the current head, and the head
has no `prev`. -/
@[mk_iff] structure RegistryInv (s : State) (b : Book) : Prop where
  nonnull : 0 ∉ b.created
  head_mem : s.all_coros = 0 ∨ s.all_coros ∈ b.created
  next_mem : ∀ x ∈ b.created, s.w.tracking_next x = 0 ∨ s.w.tracking_next x ∈ b.created
  next_ne_head : s.all_coros ≠ 0 → ∀ x ∈ b.created, s.w.tracking_next x ≠ s.all_coros
  head_prev : s.all_coros = 0 ∨ s.w.tracking_prev s.all_coros = 0

/-- Invariant relating the arena to the live workers: the outstanding regions
are pairwise distinct and are exactly the `base` handles of the live spawned
workers, which are non-null and pairwise distinct; masters own no region;
only created workers are destroyed; the handle of a live worker is the one
recorded at its spawn, every pointer passed to `deallocate` is the recorded
handle of the worker being destroyed, and no `deallocate` released a region
that was not outstanding. -/
@[mk_iff] structure ArenaInv (s : State) (b : Book) : Prop where
  nodup : (outstanding s.trace).Nodup
  regions : ∀ r, r ∈ outstanding s.trace ↔ ∃ c, c ∈ b.live ∧ s.w.base c = r
  inj : ∀ c1, c1 ∈ b.live → ∀ c2, c2 ∈ b.live → s.w.base c1 = s.w.base c2 → c1 = c2
  base_ne : ∀ c, c ∈ b.live → s.w.base c ≠ 0
  master_base : ∀ c, c ∈ b.masters → s.w.base c = 0
  destroyed_created : ∀ c, c ∈ b.destroyed → c ∈ b.created
  handle : ∀ c, c ∈ b.live → (c, s.w.base c) ∈ b.handles
  freed_handles : ∀ c r, (c, r) ∈ b.freed → (c, r) ∈ b.handles
  disc : disciplined s.trace = true

/-- State reached from `s_spawned` by `coro_spawn(1, 3, 7, 8192)` followed by
`destroy_coro(2)`: worker `3` is alive, worker `2` is destroyed. -/
def s_churned : State :=
  (destroy_coro env0 2 (coro_spawn env0 1 3 7 8192 s_spawned).state).state

/-- State reached from `s0` by `coro_spawn(1, 2, 7, 4096)`, `destroy_coro(2)`
and `coro_spawn(1, 2, 7, 4096)` again: the second worker is a new object
placed at the address the destroyed one occupied. -/
def s_reused : State :=
  (coro_spawn env0 1 2 7 4096
    (destroy_coro env0 2 (coro_spawn env0 1 2 7 4096 s0).state).state).state

/-- Book kept beside the run leading to `s_churned`. -/
def book_churned : Book :=
  { masters := [1], spawned := [3, 2], destroyed := [2],
    handles := [(3, 16781312), (2, 4096)], freed := [(2, 4096)] }

/-- Worker objects created (masters included) and not yet destroyed. -/
def Book.alive (b : Book) : List Ptr := b.created.filter fun c => decide (c ∉ b.destroyed)

/-- Invariant behind the live-worker counter: a worker object is created once,
only created objects are destroyed, and `total_coros` is the number of objects
created and not yet destroyed, as a `size_t`. -/
@[mk_iff] structure CounterInv (s : State) (b : Book) : Prop where
  created_nodup : b.created.Nodup
  created_ne : 0 ∉ b.created
  destroyed_created : ∀ c, c ∈ b.destroyed → c ∈ b.created
  total : s.total_coros = b.alive.length % WORD

/-- Number of successful spawns recorded beside a run. -/
def Book.spawns (b : Book) : Nat := b.spawned.length

/-! # Theorems -/

theorem wpo_bind {α β : Type} (x : M α) (f : α → M β) (Q : State → β → Prop)
    (F : State → Fatal → Prop) (s : State) :
    wpo (x >>= f) Q F s = wpo x (fun s1 a => wpo (f a) Q F s1) F s := by
  show wpo (M.bind x f) Q F s = _
  unfold wpo M.bind
  cases x s <;> rfl

theorem wpo_pure {α : Type} (a : α) (Q : State → α → Prop)
    (F : State → Fatal → Prop) (s : State) :
    wpo (Pure.pure a : M α) Q F s = Q s a := rfl

theorem wpo_ite {α : Type} (c : Prop) [Decidable c] (x y : M α) (Q : State → α → Prop)
    (F : State → Fatal → Prop) (s : State) :
    wpo (if c then x else y) Q F s = ((c → wpo x Q F s) ∧ (¬ c → wpo y Q F s)) := by
  by_cases h : c <;> simp [h]

theorem wpo_setSched (p : Ptr) (f : Scheduler → Scheduler) (Q : State → Unit → Prop)
    (F : State → Fatal → Prop) (s : State) :
    wpo (setSched p f) Q F s
      = Q { s with scheds := Function.update s.scheds p (f (s.scheds p)) } () := rfl

theorem wpo_update (f : State → State) (Q : State → Unit → Prop)
    (F : State → Fatal → Prop) (s : State) :
    wpo (update f) Q F s = Q (f s) () := rfl

theorem wpo_emit (e : Event) (Q : State → Unit → Prop)
    (F : State → Fatal → Prop) (s : State) :
    wpo (emit e) Q F s = Q { s with trace := s.trace ++ [e] } () := rfl

theorem wpo_getState (Q : State → State → Prop)
    (F : State → Fatal → Prop) (s : State) :
    wpo getState Q F s = Q s s := rfl

theorem wpo_get_current_thread (sched : Ptr) (Q : State → Ptr → Prop)
    (F : State → Fatal → Prop) (s : State) :
    wpo (get_current_thread sched) Q F s = Q s (s.scheds sched).current_thread := rfl

theorem wpo_CHECK (c : Bool) (w : Fatal) (Q : State → Unit → Prop)
    (F : State → Fatal → Prop) (s : State) :
    wpo (CHECK c w) Q F s = ((c = true → Q s ()) ∧ (c = false → F s w)) := by
  cases c <;> simp [wpo, CHECK]

theorem wpo_die {α : Type} (w : Fatal) (Q : State → α → Prop)
    (F : State → Fatal → Prop) (s : State) :
    wpo (die w : M α) Q F s = F s w := rfl

theorem wpo_ok {α : Type} {x : M α} {Q : State → α → Prop} {F : State → Fatal → Prop}
    {s s1 : State} {a : α} (h : wpo x Q F s) (hx : x s = .ok s1 a) : Q s1 a := by
  unfold wpo at h; rw [hx] at h; exact h

theorem wpo_fatal {α : Type} {x : M α} {Q : State → α → Prop} {F : State → Fatal → Prop}
    {s s1 : State} {w : Fatal} (h : wpo x Q F s) (hx : x s = .fatal s1 w) : F s1 w := by
  unfold wpo at h; rw [hx] at h; exact h

theorem returns_of_wpo {α : Type} {x : M α} {Q : State → α → Prop} {s : State}
    (h : wpo x Q (fun _ _ => True) s) : ∀ s1 a, x s = .ok s1 a → Q s1 a :=
  fun _ _ hx => wpo_ok h hx

theorem isOk_of_wpo {α : Type} {x : M α} {s : State}
    (h : wpo x (fun _ _ => True) (fun _ _ => False) s) : (x s).isOk = true := by
  unfold wpo at h
  cases hx : x s with
  | ok s1 a => rfl
  | fatal s1 w => rw [hx] at h; exact h.elim

theorem fatal_of_wpo {α : Type} {x : M α} {F : State → Fatal → Prop} {s : State}
    (h : wpo x (fun _ _ => False) F s) : ∃ s1 w, x s = .fatal s1 w ∧ F s1 w := by
  unfold wpo at h
  cases hx : x s with
  | ok s1 a => rw [hx] at h; exact h.elim
  | fatal s1 w => rw [hx] at h; exact ⟨s1, w, rfl, h⟩

theorem ok_of_wpo {α : Type} {x : M α} {Q : State → α → Prop} {s : State}
    (h : wpo x Q (fun _ _ => False) s) : ∃ s1 a, x s = .ok s1 a ∧ Q s1 a := by
  unfold wpo at h
  cases hx : x s with
  | ok s1 a => rw [hx] at h; exact ⟨s1, a, rfl, h⟩
  | fatal s1 w => rw [hx] at h; exact h.elim

/-! ## Effects of the three entry points -/

theorem zero_eq_int (r : Int) : (0 = r) ↔ (r = 0) := eq_comm

theorem wpo_checked_mprotect (env : Env) (a : Ptr) (l p : Nat) (Q : State → Unit → Prop)
    (F : State → Fatal → Prop) (s : State) :
    wpo (checked_mprotect env a l p) Q F s =
      ((env.mprotect s.trace a l p = 0 → Q { s with trace := s.trace ++ [.mprotect a l p] } ()) ∧
       (¬ env.mprotect s.trace a l p = 0 →
          F { s with trace := s.trace ++ [.mprotect a l p] } .mprotect_failed)) := by
  simp [checked_mprotect, mprotect, wpo_bind, wpo_pure, wpo_emit, wpo_getState, wpo_CHECK,
    zero_eq_int]

theorem coro_spawn_effect (env : Env) (me c f : Ptr) (ssize : Nat) (s s1 : State)
    (h : coro_spawn env me c f ssize s = .ok s1 ()) : SpawnEffect env s me c f ssize s1 := by
  revert s1
  suffices hw : wpo (coro_spawn env me c f ssize) (fun s1 _ => SpawnEffect env s me c f ssize s1)
      (fun _ _ => True) s from fun s1 h => wpo_ok hw h
  simp only [coro_spawn, allocate_aligned, makestack, wpo_bind, wpo_pure, wpo_ite, wpo_update,
    wpo_getState, wpo_emit, wpo_CHECK, wpo_checked_mprotect, insert_coro,
    store_running, store_suspended, store_idle, store_base, store_ssize, store_stack,
    store_valgrind_stack_id, store_tracking_prev, store_tracking_next]
  simp +contextual [spawnEffect_iff, inserted_iff, allocated, deallocated, switches,
    Function.update_apply]
  repeat' (first | intro _ | apply And.intro)
  all_goals (try simp_all)

theorem convert_to_master_effect (env : Env) (me0 : Ptr) (s s1 : State) (p : Ptr)
    (h : convert_to_master env me0 s = .ok s1 p) : MasterEffect env s me0 s1 p := by
  revert s1 p
  apply returns_of_wpo
  simp only [convert_to_master, new_Worker, mprotect, wpo_bind, wpo_pure, wpo_ite, wpo_update,
    wpo_getState, wpo_emit, wpo_CHECK, wpo_die, insert_coro,
    store_running, store_suspended, store_idle, store_base, store_stack,
    store_valgrind_stack_id, store_tracking_prev, store_tracking_next, store_sched, store_next,
    store_id, store_done]
  simp +contextual [masterEffect_iff, inserted_iff, allocated, deallocated, switches,
    Function.update_apply]
  repeat' (first | intro _ | apply And.intro)
  all_goals (try simp_all)

theorem remove_coro_eq (c : Ptr) (s : State) :
    remove_coro c s = .ok { s with w := unlinked s.w c } () := by
  have hb : ∀ {α β : Type} (x : M α) (g : α → M β) (t : State),
      (x >>= g) t = M.bind x g t := fun _ _ _ => rfl
  by_cases hp : s.w.tracking_prev c = 0 <;> by_cases hn : s.w.tracking_next c = 0 <;>
    simp [remove_coro, hb, M.bind, getState, store_tracking_next, store_tracking_prev, update,
      unlinked, hp, hn, Function.update_apply, Pure.pure, M.pure]

theorem wpo_remove_coro (c : Ptr) (Q : State → Unit → Prop) (F : State → Fatal → Prop)
    (s : State) : wpo (remove_coro c) Q F s = Q { s with w := unlinked s.w c } () := by
  unfold wpo; rw [remove_coro_eq]

theorem destroy_coro_effect (env : Env) (c : Ptr) (s s1 : State)
    (h : destroy_coro env c s = .ok s1 ()) : DestroyEffect env s c s1 := by
  revert s1
  suffices hw : wpo (destroy_coro env c) (fun s1 _ => DestroyEffect env s c s1)
      (fun _ _ => True) s from fun s1 h => wpo_ok hw h
  simp only [destroy_coro, wpo_remove_coro, deallocate, wpo_bind, wpo_pure, wpo_ite, wpo_update,
    wpo_getState, wpo_emit, wpo_CHECK, wpo_checked_mprotect]
  simp +contextual [destroyEffect_iff, allocated, deallocated, switches, unlinked]

/-! ## C7: the master control block -/

/-- C7: whatever worker `convert_to_master` is given (a fresh one when the
argument is null), the worker it returns has id 0, `running = 1`,
`suspended = 0`, `idle = 0`, `done = false`, null `base` and `stack`, null
`sched` and `next`, and the call makes no call to the arena; the call does
return when `new` delivers an object, the registry head has no `prev` and the
optional page protection succeeds. -/
theorem convert_to_master_master_block (env : Env) (me0 : Ptr) (s : State) :
    (∀ s1 p, convert_to_master env me0 s = .ok s1 p →
        p = (if me0 = 0 then env.new_Worker s.trace else me0) ∧
        s1.w.id p = 0 ∧ s1.w.running p = 1 ∧ s1.w.suspended p = 0 ∧
        s1.w.idle p = 0 ∧ s1.w.done p = false ∧ s1.w.base p = 0 ∧
        s1.w.stack p = 0 ∧ s1.w.sched p = 0 ∧ s1.w.next p = 0 ∧
        allocated (s1.trace.drop s.trace.length) = [] ∧
        deallocated (s1.trace.drop s.trace.length) = []) ∧
    ((me0 = 0 → env.new_Worker s.trace ≠ 0) →
      (s.all_coros = 0 ∨ s.all_coros = (if me0 = 0 then env.new_Worker s.trace else me0) ∨
        s.w.tracking_prev s.all_coros = 0) →
      (env.CORO_PROTECT_UNUSED_STACK = true → ∀ t p, env.mprotect t p 4096 PROT_READ = 0) →
      (convert_to_master env me0 s).isOk = true) := by
  constructor
  · intro s1 p h
    have e := convert_to_master_effect env me0 s s1 p h
    exact ⟨e.target, e.id, e.running, e.suspended, e.idle, e.done, e.base, e.stack, e.sched,
      e.next, e.allocs, e.deallocs⟩
  · intro hnew hhead hprot
    apply isOk_of_wpo
    simp only [convert_to_master, new_Worker, mprotect, wpo_bind, wpo_pure, wpo_ite, wpo_update,
      wpo_getState, wpo_emit, wpo_CHECK, wpo_die, insert_coro,
      store_running, store_suspended, store_idle, store_base, store_stack,
      store_valgrind_stack_id, store_tracking_prev, store_tracking_next, store_sched, store_next,
      store_id, store_done]
    have hp : ∀ t p, env.CORO_PROTECT_UNUSED_STACK = true →
        env.mprotect t p 4096 PROT_READ = 0 := fun t p hc => hprot hc t p
    have hupd : ∀ p : Ptr, (s.all_coros = p ∨ s.w.tracking_prev s.all_coros = 0) →
        Function.update s.w.tracking_prev p 0 s.all_coros = 0 := by
      intro p hh
      rw [Function.update_apply]
      split
      · rfl
      · rename_i e; exact hh.resolve_left e
    by_cases h0 : me0 = 0
    · simp only [h0, if_true, true_implies, ne_eq] at hnew hhead
      simp +contextual [h0, zero_eq_int, hnew, hp]
      exact ⟨fun _ hz => hupd _ (hhead.resolve_left hz), fun _ hz => hupd _ (hhead.resolve_left hz)⟩
    · simp only [h0, if_false] at hhead
      simp +contextual [h0, zero_eq_int, hp]
      exact ⟨fun _ hz => hupd _ (hhead.resolve_left hz), fun _ hz => hupd _ (hhead.resolve_left hz)⟩

/-- Instance of C7: `convert_to_master(NULL)` from `s0` returns the fresh worker `1000` as master. -/
theorem convert_to_master_master_block_witness :
    (convert_to_master env0 0 s0).isOk = true ∧
      (convert_to_master env0 0 s0).state.w.id 1000 = 0 ∧
      (convert_to_master env0 0 s0).state.w.base 1000 = 0 :=
  have h := convert_to_master_master_block env0 0 s0
  have e := h.1 (convert_to_master env0 0 s0).state 1000 rfl
  ⟨h.2 (fun _ => by decide) (Or.inl rfl) (fun hc => absurd hc (by decide)), e.2.1, e.2.2.2.2.2.2.1⟩

/-! ## C1: the registry after destruction -/

/-- C1 (code bug): `remove_coro` never resets `all_coros`, so a destroyed
worker stays reachable from the head.  After `convert_to_master(1)`,
`coro_spawn(.., 2, ..)` and `destroy_coro(2)` the head is still worker `2` and
the list from the head is `[2, 1]` although no spawned worker is alive; without
the master, after spawning and destroying worker `2` the head is still `2`
instead of null. -/
theorem registry_keeps_destroyed_worker :
    (replay env0 s0 Book.empty
        [.convert_to_master 1, .coro_spawn 1 2 7 4096, .destroy_coro 2]).map
      (fun r => (r.1.all_coros, chain r.1.w.tracking_next 8 r.1.all_coros, r.2.live))
      = some (2, some [2, 1], []) ∧
    (replay env0 s0 Book.empty [.coro_spawn 1 2 7 4096, .destroy_coro 2]).map
      (fun r => (r.1.all_coros, chain r.1.w.tracking_next 8 r.1.all_coros, r.2.live))
      = some (2, some [2], []) := by
  decide

/-! ## C4: destroying a worker that is not done -/

/-- C2: whenever `worker_spawn(me, sched, f, arg)` returns `thr`, the switches
it made into `thr` are exactly four, all made by `me`, delivering `me`, `thr`,
`f` and `arg` in that order. -/
theorem worker_spawn_delivery (env : Env) (me sched f arg : Ptr) (s s1 : State) (thr : Ptr)
    (h : worker_spawn env me sched f arg s = .ok s1 thr) :
    switches thr (s1.trace.drop s.trace.length)
      = [(me, me), (me, thr), (me, f), (me, arg)] := by
  revert s1 thr
  apply returns_of_wpo
  simp only [worker_spawn, posix_memalign, assignTid, coro_invoke,
    coro_spawn, allocate_aligned, makestack, wpo_bind, wpo_pure, wpo_ite, wpo_update,
    wpo_getState, wpo_emit, wpo_CHECK, wpo_checked_mprotect, insert_coro, wpo_die,
    wpo_get_current_thread, wpo_setSched,
    store_running, store_suspended, store_idle, store_base, store_ssize, store_stack,
    store_valgrind_stack_id, store_tracking_prev, store_tracking_next, store_sched, store_id]
  simp +contextual [switches]

/-- Instance of C2: `worker_spawn(1, 50, 8, 9)` from `s0` returns worker `4096000`. -/
theorem worker_spawn_delivery_witness :
    switches 4096000 ((worker_spawn env0 1 50 8 9 s0).state.trace.drop s0.trace.length)
      = [(1, 1), (1, 4096000), (1, 8), (1, 9)] :=
  worker_spawn_delivery env0 1 50 8 9 s0 _ 4096000 rfl

/-- C6 (counterexample): with an exhausted arena `worker_spawn` dies although
`sched->get_current_thread()` is `me`: a fatal exit does not imply a parent
mismatch. -/
theorem worker_spawn_dies_without_mismatch :
    (s0.scheds 50).current_thread = 1 ∧ (worker_spawn env_nomem 1 50 8 9 s0).isOk = false := by
  decide

/-- C6 (amended): `worker_spawn(me, sched, f, arg)` dies with the
parent-mismatch diagnostic if and only if `sched->get_current_thread()`
differs from `me`, and it then dies in the very state it was called in. -/
theorem worker_spawn_parent_check (env : Env) (me sched f arg : Ptr) (s : State) :
    ((s.scheds sched).current_thread ≠ me →
      worker_spawn env me sched f arg s = .fatal s .parent_mismatch) ∧
    (∀ s1, worker_spawn env me sched f arg s = .fatal s1 .parent_mismatch →
      (s.scheds sched).current_thread ≠ me ∧ s1 = s) := by
  constructor
  · intro h
    have hb : ∀ {α β : Type} (x : M α) (g : α → M β) (t : State),
        (x >>= g) t = M.bind x g t := fun _ _ _ => rfl
    simp only [worker_spawn, hb, M.bind, get_current_thread, CHECK]
    simp [h]
  · intro s1 h1
    have hw : wpo (worker_spawn env me sched f arg) (fun _ _ => True)
        (fun s1 w => w = .parent_mismatch → (s.scheds sched).current_thread ≠ me ∧ s1 = s) s := by
      simp only [worker_spawn, posix_memalign, assignTid, coro_invoke,
        coro_spawn, allocate_aligned, makestack, wpo_bind, wpo_pure, wpo_ite, wpo_update,
        wpo_getState, wpo_emit, wpo_CHECK, wpo_checked_mprotect, insert_coro, wpo_die,
        wpo_get_current_thread, wpo_setSched,
        store_running, store_suspended, store_idle, store_base, store_ssize, store_stack,
        store_valgrind_stack_id, store_tracking_prev, store_tracking_next, store_sched, store_id]
      simp +contextual
    exact wpo_fatal hw h1 rfl

/-- Instance of the amended C6: worker `2` is not the running worker of scheduler `50`. -/
theorem worker_spawn_parent_check_witness :
    worker_spawn env0 2 50 8 9 s0 = .fatal s0 .parent_mismatch :=
  (worker_spawn_parent_check env0 2 50 8 9 s0).1 (by decide)

/-! ## C10: `insert_coro` -/

theorem insert_coro_eq (c : Ptr) (s : State) :
    insert_coro c s =
      if s.all_coros ≠ 0 ∧ s.w.tracking_prev s.all_coros ≠ 0 then .fatal s .head_has_prev
      else .ok { s with
        all_coros := c,
        w := { s.w with
          tracking_prev :=
            if s.all_coros = 0 then s.w.tracking_prev
            else Function.update s.w.tracking_prev s.all_coros c,
          tracking_next :=
            Function.update s.w.tracking_next c s.all_coros } } () := by
  have hb : ∀ {α β : Type} (x : M α) (g : α → M β) (t : State),
      (x >>= g) t = M.bind x g t := fun _ _ _ => rfl
  by_cases hz : s.all_coros = 0 <;> by_cases hp : s.w.tracking_prev s.all_coros = 0 <;>
    simp [insert_coro, hb, M.bind, getState, store_tracking_next, store_tracking_prev, update,
      CHECK, hz, hp, Pure.pure, M.pure]

theorem chain_congr (next next1 : Ptr → Ptr) :
    ∀ (n : Nat) (p : Ptr) (l : List Ptr), chain next n p = some l →
      (∀ x ∈ l, next1 x = next x) → chain next1 n p = some l := by
  intro n
  induction n with
  | zero => intro p l h _; simpa [chain] using h
  | succ n ih =>
    intro p l h hl
    by_cases hp : p = 0
    · simpa [chain, hp] using h
    · simp only [chain, hp, if_false, Option.map_eq_some'] at h ⊢
      obtain ⟨t, ht, rfl⟩ := h
      refine ⟨t, ?_, rfl⟩
      rw [hl p (List.mem_cons_self _ _)]
      exact ih _ _ ht (fun x hx => hl x (List.mem_cons_of_mem _ hx))

/-- C10 (counterexample): inserting worker `1` into the empty registry of `s0`
succeeds and writes no worker other than `1`, so it is not the case that
exactly one other worker is written. -/
theorem insert_coro_empty_writes_no_other :
    s0.all_coros = 0 ∧ (insert_coro 1 s0).isOk = true ∧
    ¬ ∃ x, x ≠ 1 ∧ (insert_coro 1 s0).state.w.read x ≠ s0.w.read x := by
  refine ⟨rfl, by decide, ?_⟩
  rintro ⟨x, hx, h⟩
  apply h
  rw [insert_coro_eq]
  simp [Outcome.state, Workers.read, s0, State.init, Function.update_apply, hx, Workers.zero]

/-- C10 (amended): for a registry whose head has no `prev` and a worker `c`
outside it with no `prev`, `insert_coro(c)` returns; `c` is the new head, its
`tracking_next` is the old head, the old head (when there is one) points back
to `c`, the list from the head is `c` followed by the old list; the new state
is the old one after two stores (`tracking_prev` of the old head, if any, and
`tracking_next` of `c`) and the update of `all_coros`, so at most one worker
other than `c` is written: the old head when the registry is non-empty, none
when it is empty. -/
theorem insert_coro_prepends (c : Ptr) (s : State) (n : Nat) (l : List Ptr)
    (hhead : s.all_coros = 0 ∨ s.w.tracking_prev s.all_coros = 0)
    (hc : c ≠ 0) (hprev : s.w.tracking_prev c = 0)
    (hl : chain s.w.tracking_next n s.all_coros = some l) (hnot : c ∉ l) :
    ∃ s1, insert_coro c s = .ok s1 () ∧
      s1 = { s with
        all_coros := c,
        w := { s.w with
          tracking_prev :=
            if s.all_coros = 0 then s.w.tracking_prev
            else Function.update s.w.tracking_prev s.all_coros c,
          tracking_next := Function.update s.w.tracking_next c s.all_coros } } ∧
      s1.all_coros = c ∧ s1.w.tracking_next c = s.all_coros ∧ s1.w.tracking_prev c = 0 ∧
      (s.all_coros ≠ 0 → s1.w.tracking_prev s.all_coros = c) ∧
      chain s1.w.tracking_next (n + 1) c = some (c :: l) ∧
      (∀ x, x ≠ c → x ≠ s.all_coros → s1.w.read x = s.w.read x) ∧
      (s.all_coros ≠ 0 → s1.w.read s.all_coros ≠ s.w.read s.all_coros) ∧
      (s.all_coros = 0 → ∀ x, x ≠ c → s1.w.read x = s.w.read x) := by
  have hne : s.all_coros ≠ c := by
    intro e
    rw [e] at hl
    cases n with
    | zero => simp [chain, hc] at hl
    | succ n =>
      simp only [chain, hc, if_false, Option.map_eq_some'] at hl
      obtain ⟨t, _, rfl⟩ := hl
      exact hnot (List.mem_cons_self _ _)
  have hok : ¬ (s.all_coros ≠ 0 ∧ s.w.tracking_prev s.all_coros ≠ 0) := by
    rintro ⟨h1, h2⟩; exact h2 (hhead.resolve_left h1)
  refine ⟨_, by rw [insert_coro_eq, if_neg hok], rfl, rfl, by simp, ?_, ?_, ?_, ?_, ?_, ?_⟩
  · by_cases hz : s.all_coros = 0
    · simp [hz, hprev]
    · simp [hz, Function.update_apply, hne.symm, hprev]
  · intro hz; simp [hz]
  · simp only [chain, hc, if_false, Function.update_same, Option.map_eq_some']
    refine ⟨l, chain_congr _ _ n _ l hl ?_, rfl⟩
    intro x hx
    have : x ≠ c := fun e => hnot (e ▸ hx)
    simp [Function.update_apply, this]
  · intro x hx hxh
    by_cases hz : s.all_coros = 0 <;>
      simp [Workers.read, Function.update_apply, hx, hxh, hz]
  · intro hz e
    have := congrArg Worker.tracking_prev e
    simp [Workers.read, hz, hhead.resolve_left hz] at this
    exact hc this
  · intro hz x hx
    simp [Workers.read, Function.update_apply, hx, hz]

/-- Instance of the amended C10: inserting worker `3` in front of the registry `[2, 1]`. -/
theorem insert_coro_prepends_witness :
    ∃ s1, insert_coro 3 s_spawned = .ok s1 () ∧
      s1 = { s_spawned with
        all_coros := 3,
        w := { s_spawned.w with
          tracking_prev :=
            if s_spawned.all_coros = 0 then s_spawned.w.tracking_prev
            else Function.update s_spawned.w.tracking_prev s_spawned.all_coros 3,
          tracking_next := Function.update s_spawned.w.tracking_next 3 s_spawned.all_coros } } ∧
      s1.all_coros = 3 ∧ s1.w.tracking_next 3 = s_spawned.all_coros ∧ s1.w.tracking_prev 3 = 0 ∧
      (s_spawned.all_coros ≠ 0 → s1.w.tracking_prev s_spawned.all_coros = 3) ∧
      chain s1.w.tracking_next (2 + 1) 3 = some (3 :: [2, 1]) ∧
      (∀ x, x ≠ 3 → x ≠ s_spawned.all_coros → s1.w.read x = s_spawned.w.read x) ∧
      (s_spawned.all_coros ≠ 0 →
        s1.w.read s_spawned.all_coros ≠ s_spawned.w.read s_spawned.all_coros) ∧
      (s_spawned.all_coros = 0 → ∀ x, x ≠ 3 → s1.w.read x = s_spawned.w.read x) :=
  insert_coro_prepends 3 s_spawned 2 [2, 1] (by decide) (by decide) (by decide) (by decide)
    (by decide)

/-! ## C5: the recorded stack pointer -/

theorem next_stack_offset_lt (env : Env) (o : Nat) : next_stack_offset env o < 8192 := by
  unfold next_stack_offset
  exact Nat.lt_of_le_of_lt Nat.and_le_right (by norm_num)

theorem run_convert_ok (env : Env) (me : Ptr) (s s1 : State)
    (h : (Call.convert_to_master me).run env s = .ok s1 ()) :
    ∃ p, convert_to_master env me s = .ok s1 p := by
  have hb : (Call.convert_to_master me).run env s
      = M.bind (convert_to_master env me) (fun _ => Pure.pure ()) s := rfl
  rw [hb] at h
  unfold M.bind at h
  cases hx : convert_to_master env me s with
  | ok s2 p =>
    rw [hx] at h
    have : s2 = s1 := by
      have h2 : (Outcome.ok s2 () : Outcome Unit) = .ok s1 () := h
      injection h2
    exact ⟨p, by rw [this]⟩
  | fatal s2 w => rw [hx] at h; cases h

theorem replay_induct (env : Env) (P : State → Book → Prop)
    (hstep : ∀ s b k s1, P s b → k.allowed env s b = true → k.run env s = .ok s1 () →
      P s1 (b.note k (k.target env s) (s1.trace.drop s.trace.length))) :
    ∀ ks s b, P s b → ∀ s' b', replay env s b ks = some (s', b') → P s' b' := by
  intro ks
  induction ks with
  | nil =>
    intro s b hP s' b' h
    simp only [replay, Option.some.injEq, Prod.mk.injEq] at h
    obtain ⟨rfl, rfl⟩ := h
    exact hP
  | cons k ks ih =>
    intro s b hP s' b' h
    unfold replay at h
    by_cases ha : k.allowed env s b = true
    · rw [if_pos ha] at h
      cases hr : k.run env s with
      | ok s1 u =>
        rw [hr] at h
        exact ih _ _ (hstep s b k s1 hP ha hr) s' b' h
      | fatal s1 w => rw [hr] at h; cases h
    · rw [if_neg ha] at h; cases h

theorem replay_offset_lt (env : Env) (w0 : Workers) (scheds0 : Ptr → Scheduler)
    (ks : List Call) (s : State) (b : Book)
    (h : replay env (State.init w0 scheds0) Book.empty ks = some (s, b)) :
    s.current_stack_offset < 8192 := by
  refine replay_induct env (fun s _ => s.current_stack_offset < 8192) ?_ ks _ _ ?_ s b h
  · intro s b k s1 hP _ hr
    cases k with
    | convert_to_master me =>
      obtain ⟨p, hp⟩ := run_convert_ok env me s s1 hr
      rw [(convert_to_master_effect env me s s1 p hp).offset]; exact hP
    | coro_spawn me c f ssize =>
      rw [(coro_spawn_effect env me c f ssize s s1 hr).offset]
      exact next_stack_offset_lt env _
    | destroy_coro c =>
      rw [(destroy_coro_effect env c s s1 hr).offset]; exact hP
  · show (0 : Nat) < 8192
    norm_num

theorem initial_stack_add (base ssize offset : Nat) (hfit : base + ssize + 8192 ≤ WORD)
    (hoff : offset ≤ base + ssize + 4096) :
    initial_stack base ssize offset + offset = base + ssize + 4096 := by
  have hW : WORD = 18446744073709551616 := by norm_num [WORD]
  rw [hW] at hfit
  show ((((base + ssize) % WORD + 4096) % WORD + (WORD - offset % WORD)) % WORD : Nat) + offset
    = base + ssize + 4096
  rw [hW]
  have h1 : (base + ssize) % 18446744073709551616 = base + ssize := Nat.mod_eq_of_lt (by omega)
  have h2 : (base + ssize + 4096) % 18446744073709551616 = base + ssize + 4096 :=
    Nat.mod_eq_of_lt (by omega)
  have h3 : offset % 18446744073709551616 = offset := Nat.mod_eq_of_lt (by omega)
  rw [h1, h2, h3]
  have h4 : base + ssize + 4096 + (18446744073709551616 - offset)
      = (base + ssize + 4096 - offset) + 18446744073709551616 := by omega
  rw [h4, Nat.add_mod_right, Nat.mod_eq_of_lt (by omega)]
  omega

set_option maxRecDepth 1000000 in
/-- C5 (counterexample): the recorded stack pointer touches both ends of the
usable range.  On the first spawn (offset 0, base 4096, one page of stack) the
pointer handed to `makestack` is `base + 4096 + ssize`, not strictly below it;
after sixty-four spawns the offset is 4096 and a spawn with one page of stack
is handed `base + 4096`, not strictly above it. -/
theorem spawn_stack_pointer_touches_bounds :
    ((coro_spawn env0 1 2 7 4096 s0).isOk = true ∧
      (coro_spawn env0 1 2 7 4096 s0).state.w.base 2 = 4096 ∧
      initial_stack 4096 4096 s0.current_stack_offset = 12288 ∧
      Event.makestack 1 2 12288 7 2 ∈ (coro_spawn env0 1 2 7 4096 s0).state.trace ∧
      ¬ (12288 < 4096 + 4096 + 4096)) ∧
    (s_after64.current_stack_offset = 4096 ∧
      (coro_spawn env_bump 1 66 7 4096 s_after64).isOk = true ∧
      (coro_spawn env_bump 1 66 7 4096 s_after64).state.w.base 66 = 1314816 ∧
      initial_stack 1314816 4096 s_after64.current_stack_offset = 1314816 + 4096 ∧
      Event.makestack 1 66 (1314816 + 4096) 7 66
        ∈ (coro_spawn env_bump 1 66 7 4096 s_after64).state.trace ∧
      ¬ (1314816 + 4096 < 1314816 + 4096)) := by
  decide

/-- C5 (amended): in every state reachable by calls from a fresh process the
offset is below 8192, and a returning `coro_spawn` hands `makestack` the
pointer `stack = base + ssize + 4096 - current_stack_offset` (for a
page-aligned region inside the address space).  Hence
`base + 4096 + ssize - 8192 < stack ≤ base + 4096 + ssize`, and
`base + 4096 < stack` as soon as `ssize ≥ 8192`. -/
theorem spawn_stack_pointer_range (env : Env) (w0 : Workers) (scheds0 : Ptr → Scheduler)
    (ks : List Call) (s : State) (b : Book)
    (hreach : replay env (State.init w0 scheds0) Book.empty ks = some (s, b))
    (me c f : Ptr) (ssize : Nat) (s1 : State)
    (hs : coro_spawn env me c f ssize s = .ok s1 ())
    (halign : s1.w.base c % 4096 = 0)
    (hfit : s1.w.base c + ssize + 8192 ≤ WORD) :
    s.current_stack_offset < 8192 ∧
    Event.makestack me c (initial_stack (s1.w.base c) ssize s.current_stack_offset) f c
      ∈ s1.trace.drop s.trace.length ∧
    initial_stack (s1.w.base c) ssize s.current_stack_offset + s.current_stack_offset
      = s1.w.base c + ssize + 4096 ∧
    initial_stack (s1.w.base c) ssize s.current_stack_offset ≤ s1.w.base c + 4096 + ssize ∧
    s1.w.base c + 4096 + ssize < initial_stack (s1.w.base c) ssize s.current_stack_offset + 8192 ∧
    (8192 ≤ ssize →
      s1.w.base c + 4096 < initial_stack (s1.w.base c) ssize s.current_stack_offset) := by
  have e := coro_spawn_effect env me c f ssize s s1 hs
  have hoff := replay_offset_lt env w0 scheds0 ks s b hreach
  have hne : s1.w.base c ≠ 0 := by rw [e.base]; exact e.handle_ne
  have hbase : env.allocate_aligned s.trace ((ssize + 4096 * 2) % WORD) 4096 = s1.w.base c :=
    e.base.symm
  have hev := e.stack_event
  rw [hbase] at hev
  have hadd : ∀ B S : Nat, B = s1.w.base c →
      S = initial_stack (s1.w.base c) ssize s.current_stack_offset →
      S + s.current_stack_offset = B + ssize + 4096 ∧ S ≤ B + 4096 + ssize ∧
      B + 4096 + ssize < S + 8192 ∧ (8192 ≤ ssize → B + 4096 < S) := by
    intro B S hB hS
    have hne1 : B ≠ 0 := hB ▸ hne
    have hal1 : B % 4096 = 0 := hB ▸ halign
    have hfit1 : B + ssize + 8192 ≤ WORD := hB ▸ hfit
    have h : S + s.current_stack_offset = B + ssize + 4096 := by
      rw [hS, ← hB]
      exact initial_stack_add B ssize s.current_stack_offset hfit1 (by omega)
    exact ⟨h, by omega, by omega, fun _ => by omega⟩
  obtain ⟨h1, h2, h3, h4⟩ := hadd _ _ rfl rfl
  exact ⟨hoff, hev, h1, h2, h3, h4⟩

/-- Instance of the amended C5: a third worker with four pages of stack, spawned from `s_spawned`. -/
theorem spawn_stack_pointer_range_witness :
    s_spawned.current_stack_offset < 8192 ∧
    Event.makestack 1 3 (initial_stack ((coro_spawn env0 1 3 7 16384 s_spawned).state.w.base 3)
        16384 s_spawned.current_stack_offset) 7 3
      ∈ (coro_spawn env0 1 3 7 16384 s_spawned).state.trace.drop s_spawned.trace.length ∧
    initial_stack ((coro_spawn env0 1 3 7 16384 s_spawned).state.w.base 3) 16384
        s_spawned.current_stack_offset + s_spawned.current_stack_offset
      = (coro_spawn env0 1 3 7 16384 s_spawned).state.w.base 3 + 16384 + 4096 ∧
    initial_stack ((coro_spawn env0 1 3 7 16384 s_spawned).state.w.base 3) 16384
        s_spawned.current_stack_offset
      ≤ (coro_spawn env0 1 3 7 16384 s_spawned).state.w.base 3 + 4096 + 16384 ∧
    (coro_spawn env0 1 3 7 16384 s_spawned).state.w.base 3 + 4096 + 16384
      < initial_stack ((coro_spawn env0 1 3 7 16384 s_spawned).state.w.base 3) 16384
        s_spawned.current_stack_offset + 8192 ∧
    (8192 ≤ 16384 →
      (coro_spawn env0 1 3 7 16384 s_spawned).state.w.base 3 + 4096
        < initial_stack ((coro_spawn env0 1 3 7 16384 s_spawned).state.w.base 3) 16384
          s_spawned.current_stack_offset) :=
  spawn_stack_pointer_range env0 Workers.zero (fun _ => { current_thread := 1, nextId := 1 })
    [.convert_to_master 1, .coro_spawn 1 2 7 4096] s_spawned
    { masters := [1], spawned := [2], destroyed := [], handles := [(2, 4096)], freed := [] }
    rfl 1 3 7 16384 (coro_spawn env0 1 3 7 16384 s_spawned).state rfl (by decide)
    (by decide)

/-! ## C8: stack sizes and guard pages -/

theorem guard_address_mod (r ssize : Nat) (hr : r % 4096 = 0) :
    ∀ a : Nat, a = padd (padd r ssize) 4096 → a % 4096 = ssize % 4096 := by
  intro a ha
  have hW : WORD = 4096 * 4503599627370496 := by
    show (2 : Nat) ^ 64 = 4096 * 4503599627370496
    norm_num
  unfold padd at ha
  rw [ha, hW, Nat.mod_mul_right_mod, Nat.add_mod, Nat.mod_mul_right_mod]
  omega

theorem guard_ok_imp (env : Env) (hposix : PosixMprotect env) (halign : AlignedArena env)
    (t t1 : List Event) (size ssize len prot : Nat)
    (h : env.mprotect t (padd (padd (env.allocate_aligned t1 size 4096) ssize) 4096) len prot = 0) :
    ssize % 4096 = 0 := by
  by_contra hne
  refine hposix t _ len prot ?_ h
  have := guard_address_mod (env.allocate_aligned t1 size 4096) ssize (halign t1 size) _ rfl
  intro h0
  exact hne (this ▸ h0)

theorem coro_spawn_guarded_pages (env : Env) (hguard : env.GUARD_PAGES_ON_STACK = true)
    (hposix : PosixMprotect env) (halign : AlignedArena env)
    (me c f : Ptr) (ssize : Nat) (s s1 : State)
    (h : coro_spawn env me c f ssize s = .ok s1 ()) : ssize % 4096 = 0 := by
  revert s1
  suffices hw : wpo (coro_spawn env me c f ssize) (fun _ _ => ssize % 4096 = 0)
      (fun _ _ => True) s from fun s1 h => wpo_ok hw h
  have key := guard_ok_imp env hposix halign
  simp only [coro_spawn, allocate_aligned, makestack, wpo_bind, wpo_pure, wpo_ite, wpo_update,
    wpo_getState, wpo_emit, wpo_CHECK, wpo_checked_mprotect, insert_coro,
    store_running, store_suspended, store_idle, store_base, store_ssize, store_stack,
    store_valgrind_stack_id, store_tracking_prev, store_tracking_next]
  simp only [hguard, true_implies, not_true_eq_false, false_implies, and_true, implies_true,
    Function.update_same]
  intro _ _
  constructor <;> intro _ _ h2 <;> have hs := key _ _ _ _ _ _ h2 <;> simp [hs]

theorem bind_ok {α β : Type} {x : M α} {g : α → M β} {s s1 : State} {b : β}
    (h : (x >>= g) s = .ok s1 b) : ∃ sa a, x s = .ok sa a ∧ g a sa = .ok s1 b := by
  have hb : (x >>= g) s = M.bind x g s := rfl
  rw [hb] at h
  unfold M.bind at h
  cases hx : x s with
  | ok sa a => rw [hx] at h; exact ⟨sa, a, rfl, h⟩
  | fatal sa w => rw [hx] at h; cases h

theorem coro_invoke_ssize (env : Env) (me c val : Ptr) (s s1 : State)
    (h : coro_invoke env me c val s = .ok s1 ()) : s1.w.ssize = s.w.ssize := by
  revert s1
  suffices hw : wpo (coro_invoke env me c val) (fun s1 _ => s1.w.ssize = s.w.ssize)
      (fun _ _ => True) s from fun s1 h => wpo_ok hw h
  simp only [coro_invoke, wpo_bind, wpo_getState, wpo_emit, store_stack, wpo_update]

theorem worker_spawn_inner (env : Env) (me sched f arg : Ptr) (s s1 : State) (thr : Ptr)
    (h : worker_spawn env me sched f arg s = .ok s1 thr) :
    ∃ sa sb, coro_spawn env me thr env.tramp (to_size_t env.FLAGS_stack_size) sa = .ok sb () ∧
      s1.w.ssize thr = sb.w.ssize thr := by
  unfold worker_spawn at h
  obtain ⟨_, cur, _, h⟩ := bind_ok h
  obtain ⟨_, _, _, h⟩ := bind_ok h
  obtain ⟨_, t, _, h⟩ := bind_ok h
  dsimp only at h
  by_cases ht : t = 0
  · rw [if_pos ht] at h
    obtain ⟨_, _, hd, _⟩ := bind_ok h
    cases hd
  rw [if_neg ht] at h
  obtain ⟨_, _, _, h⟩ := bind_ok h
  obtain ⟨_, _, _, h⟩ := bind_ok h
  obtain ⟨sa, _, _, h⟩ := bind_ok h
  obtain ⟨sb, _, hsp, h⟩ := bind_ok h
  obtain ⟨s2, _, h2, h⟩ := bind_ok h
  obtain ⟨s3, _, h3, h⟩ := bind_ok h
  obtain ⟨s4, _, h4, h⟩ := bind_ok h
  obtain ⟨s5, _, h5, h⟩ := bind_ok h
  have hp : (Outcome.ok s5 t : Outcome Ptr) = .ok s1 thr := h
  injection hp with e1 e2
  subst e1 e2
  refine ⟨sa, sb, hsp, ?_⟩
  rw [coro_invoke_ssize _ _ _ _ _ _ h5, coro_invoke_ssize _ _ _ _ _ _ h4,
    coro_invoke_ssize _ _ _ _ _ _ h3, coro_invoke_ssize _ _ _ _ _ _ h2]

theorem partial_page_guard_fails (env : Env) (hposix : PosixMprotect env)
    (halign : AlignedArena env) (ssize : Nat) (hne : ssize % 4096 ≠ 0) :
    ∀ t t1 size len prot,
      ¬ env.mprotect t (padd (padd (env.allocate_aligned t1 size 4096) ssize) 4096) len prot = 0 :=
  fun t t1 size len prot h => hne (guard_ok_imp env hposix halign t t1 size ssize len prot h)

theorem coro_spawn_partial_page_dies (env : Env) (hguard : env.GUARD_PAGES_ON_STACK = true)
    (hposix : PosixMprotect env) (halign : AlignedArena env)
    (me c f : Ptr) (ssize : Nat) (s : State) (hne : ssize % 4096 ≠ 0) :
    wpo (coro_spawn env me c f ssize) (fun _ _ => False)
      (fun _ w => c ≠ 0 → env.allocate_aligned s.trace ((ssize + 4096 * 2) % WORD) 4096 ≠ 0 →
        w = .mprotect_failed) s := by
  have hk := partial_page_guard_fails env hposix halign ssize hne
  simp only [coro_spawn, allocate_aligned, makestack, wpo_bind, wpo_pure, wpo_ite, wpo_update,
    wpo_getState, wpo_emit, wpo_CHECK, wpo_checked_mprotect, insert_coro,
    store_running, store_suspended, store_idle, store_base, store_ssize, store_stack,
    store_valgrind_stack_id, store_tracking_prev, store_tracking_next]
  simp +contextual [hguard, hk]

theorem worker_spawn_partial_page_dies (env : Env) (hguard : env.GUARD_PAGES_ON_STACK = true)
    (hposix : PosixMprotect env) (halign : AlignedArena env)
    (me sched f arg : Ptr) (s : State) (hne : to_size_t env.FLAGS_stack_size % 4096 ≠ 0)
    (hcur : (s.scheds sched).current_thread = me)
    (hmem : ∀ t a n, env.posix_memalign t a n ≠ 0)
    (harena : ∀ t n a, env.allocate_aligned t n a ≠ 0) :
    wpo (worker_spawn env me sched f arg) (fun _ _ => False)
      (fun _ w => w = .mprotect_failed) s := by
  have hk := partial_page_guard_fails env hposix halign _ hne
  simp only [worker_spawn, posix_memalign, assignTid, coro_invoke,
    coro_spawn, allocate_aligned, makestack, wpo_bind, wpo_pure, wpo_ite, wpo_update,
    wpo_getState, wpo_emit, wpo_CHECK, wpo_checked_mprotect, insert_coro, wpo_die,
    wpo_get_current_thread, wpo_setSched,
    store_running, store_suspended, store_idle, store_base, store_ssize, store_stack,
    store_valgrind_stack_id, store_tracking_prev, store_tracking_next, store_sched, store_id]
  simp +contextual [hguard, hk, hcur, hmem, harena]

theorem coro_spawn_unguarded_returns (env : Env) (hguard : env.GUARD_PAGES_ON_STACK = false)
    (hcoro : env.CORO_PROTECT_UNUSED_STACK = false)
    (me c f : Ptr) (ssize : Nat) (s : State)
    (hhead : s.all_coros = 0 ∨ s.w.tracking_prev s.all_coros = 0)
    (hc : c ≠ 0)
    (hr : env.allocate_aligned s.trace ((ssize + 4096 * 2) % WORD) 4096 ≠ 0) :
    wpo (coro_spawn env me c f ssize) (fun s1 _ => s1.w.ssize c = ssize)
      (fun _ _ => False) s := by
  simp only [coro_spawn, allocate_aligned, makestack, wpo_bind, wpo_pure, wpo_ite, wpo_update,
    wpo_getState, wpo_emit, wpo_CHECK, wpo_checked_mprotect, insert_coro,
    store_running, store_suspended, store_idle, store_base, store_ssize, store_stack,
    store_valgrind_stack_id, store_tracking_prev, store_tracking_next]
  rcases hhead with hhead | hhead <;>
    simp +contextual [hguard, hcoro, hc, hr, hhead, Function.update_apply]

theorem worker_spawn_unguarded_returns (env : Env) (hguard : env.GUARD_PAGES_ON_STACK = false)
    (hcoro : env.CORO_PROTECT_UNUSED_STACK = false)
    (me sched f arg : Ptr) (s : State)
    (hhead : s.all_coros = 0 ∨ s.w.tracking_prev s.all_coros = 0)
    (hcur : (s.scheds sched).current_thread = me)
    (hmem : ∀ t a n, env.posix_memalign t a n ≠ 0)
    (harena : ∀ t n a, env.allocate_aligned t n a ≠ 0) :
    wpo (worker_spawn env me sched f arg)
      (fun s1 thr => s1.w.ssize thr = to_size_t env.FLAGS_stack_size)
      (fun _ _ => False) s := by
  simp only [worker_spawn, posix_memalign, assignTid, coro_invoke,
    coro_spawn, allocate_aligned, makestack, wpo_bind, wpo_pure, wpo_ite, wpo_update,
    wpo_getState, wpo_emit, wpo_CHECK, wpo_checked_mprotect, insert_coro, wpo_die,
    wpo_get_current_thread, wpo_setSched,
    store_running, store_suspended, store_idle, store_base, store_ssize, store_stack,
    store_valgrind_stack_id, store_tracking_prev, store_tracking_next, store_sched, store_id]
  rcases hhead with hhead | hhead <;>
    simp +contextual [hguard, hcoro, hcur, hmem, harena, hhead, Function.update_apply]

theorem destroy_coro_partial_page_dies (env : Env) (hposix : PosixMprotect env)
    (c : Ptr) (s : State) (hb : s.w.base c ≠ 0) (hal : s.w.base c % 4096 = 0)
    (hs : s.w.ssize c % 4096 ≠ 0) :
    wpo (destroy_coro env c) (fun _ _ => False) (fun _ w => w = .mprotect_failed) s := by
  have hk : ∀ t l p,
      ¬ env.mprotect t (padd (padd (s.w.base c) (s.w.ssize c)) 4096) l p = 0 := by
    intro t l p
    refine hposix t _ l p ?_
    rw [guard_address_mod (s.w.base c) (s.w.ssize c) hal _ rfl]
    exact hs
  simp only [destroy_coro, wpo_remove_coro, deallocate, wpo_bind, wpo_pure, wpo_ite, wpo_update,
    wpo_getState, wpo_emit, wpo_CHECK, wpo_checked_mprotect]
  simp +contextual [hb, hk]

/-- C8 (counterexample): built without `GUARD_PAGES_ON_STACK`, `coro_spawn`
with a usable size of 100 bytes and `worker_spawn` with a configured stack
size of 100 bytes both return, and the worker records `ssize = 100`, which is
not a multiple of 4096. -/
theorem spawn_accepts_partial_page_without_guard :
    (coro_spawn env_noguard 1 2 7 100 s0).isOk = true ∧
    (coro_spawn env_noguard 1 2 7 100 s0).state.w.ssize 2 = 100 ∧
    (worker_spawn env_noguard 1 50 8 9 s0).isOk = true ∧
    (worker_spawn env_noguard 1 50 8 9 s0).state.w.ssize 4096000 = 100 ∧
    ¬ (100 % 4096 = 0) := by
  decide

/-- C8 (amended): `coro_spawn` has no size check of its own; a partial page
is rejected only by the `mprotect` call that arms the upper guard page.
(1) In a build with `GUARD_PAGES_ON_STACK`, the arena returning page-aligned
regions and `mprotect` rejecting unaligned addresses: for a stack size that is
not a multiple of 4096 neither `coro_spawn` nor `worker_spawn` returns, and
once the earlier checks have passed (non-null worker and region; for
`worker_spawn` a matching parent and allocators that do not fail) they die
with the diagnostic of `checked_mprotect`; every worker they return records a
size that is a multiple of 4096.
(2) In a build without `GUARD_PAGES_ON_STACK` and without
`CORO_PROTECT_UNUSED_STACK`, for every stack size: when the registry is empty
or its head has no `prev`, the worker is non-null and the arena returns a
region, `coro_spawn` returns and records that size; likewise `worker_spawn`
with the configured size, when the parent matches and the allocators do not
fail.
(3) In every build, with `mprotect` rejecting unaligned addresses,
`destroy_coro` of a worker with a page-aligned non-null `base` and a size that
is not a multiple of 4096 dies with the diagnostic of `checked_mprotect`. -/
theorem spawn_requires_whole_pages (env : Env) (me c f sched arg : Ptr) (ssize : Nat)
    (s : State) :
    (env.GUARD_PAGES_ON_STACK = true → PosixMprotect env → AlignedArena env →
      (ssize % 4096 ≠ 0 →
        (coro_spawn env me c f ssize s).isOk = false ∧
        (c ≠ 0 → env.allocate_aligned s.trace ((ssize + 4096 * 2) % WORD) 4096 ≠ 0 →
          ∃ s1, coro_spawn env me c f ssize s = .fatal s1 .mprotect_failed)) ∧
      (∀ s1, coro_spawn env me c f ssize s = .ok s1 () → s1.w.ssize c % 4096 = 0) ∧
      (to_size_t env.FLAGS_stack_size % 4096 ≠ 0 →
        (worker_spawn env me sched f arg s).isOk = false ∧
        ((s.scheds sched).current_thread = me → (∀ t a n, env.posix_memalign t a n ≠ 0) →
          (∀ t n a, env.allocate_aligned t n a ≠ 0) →
          ∃ s1, worker_spawn env me sched f arg s = .fatal s1 .mprotect_failed)) ∧
      (∀ s1 thr, worker_spawn env me sched f arg s = .ok s1 thr →
        s1.w.ssize thr % 4096 = 0)) ∧
    (env.GUARD_PAGES_ON_STACK = false → env.CORO_PROTECT_UNUSED_STACK = false →
      (s.all_coros = 0 ∨ s.w.tracking_prev s.all_coros = 0) →
      (c ≠ 0 → env.allocate_aligned s.trace ((ssize + 4096 * 2) % WORD) 4096 ≠ 0 →
        ∃ s1, coro_spawn env me c f ssize s = .ok s1 () ∧ s1.w.ssize c = ssize) ∧
      ((s.scheds sched).current_thread = me → (∀ t a n, env.posix_memalign t a n ≠ 0) →
        (∀ t n a, env.allocate_aligned t n a ≠ 0) →
        ∃ s1 thr, worker_spawn env me sched f arg s = .ok s1 thr ∧
          s1.w.ssize thr = to_size_t env.FLAGS_stack_size)) ∧
    (PosixMprotect env → s.w.base c ≠ 0 → s.w.base c % 4096 = 0 → s.w.ssize c % 4096 ≠ 0 →
      ∃ s1, destroy_coro env c s = .fatal s1 .mprotect_failed) := by
  refine ⟨fun hguard hposix halign => ⟨fun hne => ⟨?_, fun hc hr => ?_⟩, fun s1 h => ?_,
      fun hne => ⟨?_, fun hcur hmem harena => ?_⟩, fun s1 thr h => ?_⟩,
    fun hguard hcoro hhead => ⟨fun hc hr => ?_, fun hcur hmem harena => ?_⟩,
    fun hposix hb hal hs => ?_⟩
  · cases hx : coro_spawn env me c f ssize s with
    | ok s1 u => exact absurd (coro_spawn_guarded_pages env hguard hposix halign _ _ _ _ _ _ hx) hne
    | fatal s1 w => rfl
  · obtain ⟨s1, w, hx, hw⟩ :=
      fatal_of_wpo (coro_spawn_partial_page_dies env hguard hposix halign me c f ssize s hne)
    exact ⟨s1, by rw [hx, hw hc hr]⟩
  · rw [(coro_spawn_effect env me c f ssize s s1 h).ssize_eq]
    exact coro_spawn_guarded_pages env hguard hposix halign _ _ _ _ _ _ h
  · cases hx : worker_spawn env me sched f arg s with
    | ok s1 thr =>
      obtain ⟨sa, sb, hsp, _⟩ := worker_spawn_inner env me sched f arg s s1 thr hx
      exact absurd (coro_spawn_guarded_pages env hguard hposix halign _ _ _ _ _ _ hsp) hne
    | fatal s1 w => rfl
  · obtain ⟨s1, w, hx, hw⟩ := fatal_of_wpo
      (worker_spawn_partial_page_dies env hguard hposix halign me sched f arg s hne hcur hmem
        harena)
    exact ⟨s1, by rw [hx, hw]⟩
  · obtain ⟨sa, sb, hsp, he⟩ := worker_spawn_inner env me sched f arg s s1 thr h
    rw [he, (coro_spawn_effect env me thr env.tramp _ sa sb hsp).ssize_eq]
    exact coro_spawn_guarded_pages env hguard hposix halign _ _ _ _ _ _ hsp
  · obtain ⟨s1, u, hx, hq⟩ :=
      ok_of_wpo (coro_spawn_unguarded_returns env hguard hcoro me c f ssize s hhead hc hr)
    exact ⟨s1, hx, hq⟩
  · obtain ⟨s1, thr, hx, hq⟩ := ok_of_wpo
      (worker_spawn_unguarded_returns env hguard hcoro me sched f arg s hhead hcur hmem harena)
    exact ⟨s1, thr, hx, hq⟩
  · obtain ⟨s1, w, hx, hw⟩ := fatal_of_wpo (destroy_coro_partial_page_dies env hposix c s hb hal hs)
    exact ⟨s1, by rw [hx, hw]⟩

theorem env0_posix : PosixMprotect env0 := by
  intro t addr len prot h
  show (if addr % 4096 = 0 then (0 : Int) else -1) ≠ 0
  rw [if_neg h]; decide

theorem env0_aligned : AlignedArena env0 := by
  intro t size
  show 4096 * ((outstanding t).sum + 1) % 4096 = 0
  exact Nat.mul_mod_right _ _

theorem env_noguard_posix : PosixMprotect env_noguard := by
  intro t addr len prot h
  show (if addr % 4096 = 0 then (0 : Int) else -1) ≠ 0
  rw [if_neg h]; decide

/-- Instance of the amended C8: under `env0` (guard pages armed) a size of 100
bytes dies in `checked_mprotect` and a returned worker of 4096 bytes records a
whole page; under `env_noguard` both spawns return a worker of 100 bytes,
which `destroy_coro` then cannot tear down. -/
theorem spawn_requires_whole_pages_witness :
    ((coro_spawn env0 1 2 7 100 s0).isOk = false ∧
      ∃ s1, coro_spawn env0 1 2 7 100 s0 = .fatal s1 .mprotect_failed) ∧
    (∀ s1, coro_spawn env0 1 2 7 4096 s0 = .ok s1 () → s1.w.ssize 2 % 4096 = 0) ∧
    (∃ s1, coro_spawn env_noguard 1 2 7 100 s0 = .ok s1 () ∧ s1.w.ssize 2 = 100) ∧
    (∃ s1 thr, worker_spawn env_noguard 1 50 7 9 s0 = .ok s1 thr ∧ s1.w.ssize thr = 100) ∧
    (∃ s1, destroy_coro env_noguard 2 (coro_spawn env_noguard 1 2 7 100 s0).state
      = .fatal s1 .mprotect_failed) :=
  have h := spawn_requires_whole_pages env0 1 2 7 50 9 100 s0
  have h1 := spawn_requires_whole_pages env0 1 2 7 50 9 4096 s0
  have h2 := spawn_requires_whole_pages env_noguard 1 2 7 50 9 100 s0
  have h3 := spawn_requires_whole_pages env_noguard 1 2 7 50 9 100
    (coro_spawn env_noguard 1 2 7 100 s0).state
  have g := (h.1 rfl env0_posix env0_aligned).1 (by decide)
  have n := h2.2.1 rfl rfl (Or.inl rfl)
  ⟨⟨g.1, g.2 (by decide) (by decide)⟩, (h1.1 rfl env0_posix env0_aligned).2.1,
    n.1 (by decide) (by decide),
    n.2 rfl
      (fun t _ _ => Nat.mul_ne_zero (by decide)
        (Nat.ne_of_gt (Nat.lt_of_lt_of_le (by decide : 0 < 1000) (Nat.le_add_right 1000 t.length))))
      (fun t _ _ => Nat.mul_ne_zero (by decide) (Nat.succ_ne_zero (outstanding t).sum)),
    h3.2.2 env_noguard_posix (by decide) (by decide) (by decide)⟩

/-! ## C9: the head of the registry -/

theorem mem_created_note_convert (b : Book) (me p x : Ptr) (evs : List Event) :
    x ∈ (b.note (.convert_to_master me) p evs).created ↔ x = p ∨ x ∈ b.created := by
  simp only [Book.note, Book.created, List.mem_append, List.mem_cons]
  tauto

theorem mem_created_note_spawn (b : Book) (me c f : Ptr) (ssize : Nat) (p x : Ptr)
    (evs : List Event) :
    x ∈ (b.note (.coro_spawn me c f ssize) p evs).created ↔ x = p ∨ x ∈ b.created := by
  simp only [Book.note, Book.created, List.mem_append, List.mem_cons]
  tauto

theorem created_note_destroy (b : Book) (c p : Ptr) (evs : List Event) :
    (b.note (.destroy_coro c) p evs).created = b.created := rfl

theorem registryInv_inserted (s s1 : State) (b b1 : Book) (c : Ptr)
    (hinv : RegistryInv s b) (hins : Inserted s c s1) (hc : c ≠ 0) (hfresh : c ∉ b.created)
    (hb : ∀ x, x ∈ b1.created ↔ x = c ∨ x ∈ b.created) : RegistryInv s1 b1 := by
  have hhc : s.all_coros ≠ c := by
    intro e
    rcases hinv.head_mem with h | h
    · exact hc (e ▸ h)
    · exact hfresh (e ▸ h)
  refine ⟨?_, ?_, ?_, ?_, ?_⟩
  · intro h0
    rcases (hb 0).1 h0 with h | h
    · exact hc h.symm
    · exact hinv.nonnull h
  · right; rw [hins.head]; exact (hb c).2 (Or.inl rfl)
  · intro x hx
    rcases (hb x).1 hx with h | h
    · subst h
      rw [hins.next_c]
      rcases hinv.head_mem with h0 | h0
      · exact Or.inl h0
      · exact Or.inr ((hb _).2 (Or.inr h0))
    · have hxc : x ≠ c := fun e => hfresh (e ▸ h)
      rw [hins.next_frame x hxc]
      rcases hinv.next_mem x h with h0 | h0
      · exact Or.inl h0
      · exact Or.inr ((hb _).2 (Or.inr h0))
  · intro _ x hx
    rw [hins.head]
    rcases (hb x).1 hx with h | h
    · subst h
      rw [hins.next_c]; exact hhc
    · have hxc : x ≠ c := fun e => hfresh (e ▸ h)
      rw [hins.next_frame x hxc]
      intro e
      rcases hinv.next_mem x h with h0 | h0
      · exact hc (e ▸ h0)
      · exact hfresh (e ▸ h0)
  · right; rw [hins.head]; exact hins.prev_c hhc

theorem registryInv_unlinked (s s1 : State) (b b1 : Book) (c : Ptr)
    (hinv : RegistryInv s b) (hc : c ∈ b.created) (hhead : s1.all_coros = s.all_coros)
    (hw : s1.w = s.w ∨ s1.w = unlinked s.w c) (hb : b1.created = b.created) :
    RegistryInv s1 b1 := by
  rcases hw with hw | hw
  · refine ⟨?_, ?_, ?_, ?_, ?_⟩
    · rw [hb]; exact hinv.nonnull
    · rw [hb, hhead]; exact hinv.head_mem
    · rw [hb, hw]; exact hinv.next_mem
    · rw [hb, hw, hhead]; exact hinv.next_ne_head
    · rw [hw, hhead]; exact hinv.head_prev
  · have hnext : ∀ x, s1.w.tracking_next x = s.w.tracking_next x ∨
        s1.w.tracking_next x = s.w.tracking_next c := by
      intro x
      rw [hw]
      simp only [unlinked]
      split
      · exact Or.inl rfl
      · rw [Function.update_apply]; split
        · exact Or.inr rfl
        · exact Or.inl rfl
    refine ⟨?_, ?_, ?_, ?_, ?_⟩
    · rw [hb]; exact hinv.nonnull
    · rw [hb, hhead]; exact hinv.head_mem
    · rw [hb]
      intro x hx
      rcases hnext x with h | h
      · rw [h]; exact hinv.next_mem x hx
      · rw [h]; exact hinv.next_mem c hc
    · rw [hb, hhead]
      intro h0 x hx
      rcases hnext x with h | h
      · rw [h]; exact hinv.next_ne_head h0 x hx
      · rw [h]; exact hinv.next_ne_head h0 c hc
    · rw [hhead]
      rcases hinv.head_prev with h0 | h0
      · exact Or.inl h0
      · by_cases hz : s.all_coros = 0
        · exact Or.inl hz
        · right
          rw [hw]
          simp only [unlinked]
          split
          · exact h0
          · rw [Function.update_apply, if_neg]
            · exact h0
            · exact fun e => hinv.next_ne_head hz c hc e.symm

theorem registryInv_step (env : Env) (s : State) (b : Book) (k : Call) (s1 : State)
    (hinv : RegistryInv s b) (ha : k.allowed env s b = true) (hr : k.run env s = .ok s1 ()) :
    RegistryInv s1 (b.note k (k.target env s) (s1.trace.drop s.trace.length)) := by
  cases k with
  | convert_to_master me =>
    obtain ⟨p, hp⟩ := run_convert_ok env me s s1 hr
    have e := convert_to_master_effect env me s s1 p hp
    have ht : (Call.convert_to_master me).target env s = p := e.target.symm
    have hfresh : p ∉ b.created := by
      rw [← ht]; simpa [Call.allowed] using ha
    have hp0 : p ≠ 0 := by
      by_cases h0 : me = 0
      · exact e.fresh_ne h0
      · have := e.target; rw [if_neg h0] at this; rw [this]; exact h0
    rw [ht]
    exact registryInv_inserted s s1 b _ p hinv e.inserted hp0 hfresh
      (fun x => mem_created_note_convert b me p x _)
  | coro_spawn me c f ssize =>
    have e := coro_spawn_effect env me c f ssize s s1 hr
    have hfresh : c ∉ b.created := by simpa [Call.allowed, Call.target] using ha
    exact registryInv_inserted s s1 b _ c hinv e.inserted e.c_ne hfresh
      (fun x => mem_created_note_spawn b me c f ssize c x _)
  | destroy_coro c =>
    have e := destroy_coro_effect env c s s1 hr
    have hc : c ∈ b.created := by
      have : c ∈ b.created ∧ c ∉ b.destroyed := by simpa [Call.allowed] using ha
      exact this.1
    refine registryInv_unlinked s s1 b _ c hinv hc e.head ?_ (created_note_destroy b c _ _)
    rw [e.workers]
    split
    · exact Or.inl rfl
    · exact Or.inr rfl

theorem registryInv_init (w0 : Workers) (scheds0 : Ptr → Scheduler) :
    RegistryInv (State.init w0 scheds0) Book.empty :=
  ⟨by simp [Book.empty, Book.created], Or.inl rfl, by simp [Book.empty, Book.created],
    fun h => absurd rfl h, Or.inl rfl⟩

theorem head_check_failure (env : Env) (k : Call) (s s1 : State)
    (h : k.run env s = .fatal s1 .head_has_prev) :
    s.all_coros ≠ 0 ∧ s.w.tracking_prev s.all_coros ≠ 0 := by
  have hupd : ∀ c : Ptr, ¬ Function.update s.w.tracking_prev c 0 s.all_coros = 0 →
      ¬ s.w.tracking_prev s.all_coros = 0 := by
    intro c hne h0
    apply hne
    rw [Function.update_apply]; split
    · rfl
    · exact h0
  cases k with
  | convert_to_master me =>
    have hx : convert_to_master env me s = .fatal s1 .head_has_prev := by
      have hb : (Call.convert_to_master me).run env s
          = M.bind (convert_to_master env me) (fun _ => Pure.pure ()) s := rfl
      rw [hb] at h
      unfold M.bind at h
      cases hc : convert_to_master env me s with
      | ok s2 p => rw [hc] at h; cases h
      | fatal s2 w => rw [hc] at h; simpa using h
    have hw : wpo (convert_to_master env me) (fun _ _ => True)
        (fun _ w => w = .head_has_prev →
          s.all_coros ≠ 0 ∧ s.w.tracking_prev s.all_coros ≠ 0) s := by
      simp only [convert_to_master, new_Worker, mprotect, wpo_bind, wpo_pure, wpo_ite, wpo_update,
        wpo_getState, wpo_emit, wpo_CHECK, wpo_die, insert_coro,
        store_running, store_suspended, store_idle, store_base, store_stack,
        store_valgrind_stack_id, store_tracking_prev, store_tracking_next, store_sched,
        store_next, store_id, store_done]
      simp +contextual
      repeat' (first | intro _ | apply And.intro)
      all_goals (first | exact hupd _ (by assumption) | simp_all)
    exact wpo_fatal hw hx rfl
  | coro_spawn me c f ssize =>
    have hw : wpo (coro_spawn env me c f ssize) (fun _ _ => True)
        (fun _ w => w = .head_has_prev →
          s.all_coros ≠ 0 ∧ s.w.tracking_prev s.all_coros ≠ 0) s := by
      simp only [coro_spawn, allocate_aligned, makestack, wpo_bind, wpo_pure, wpo_ite, wpo_update,
        wpo_getState, wpo_emit, wpo_CHECK, wpo_checked_mprotect, insert_coro,
        store_running, store_suspended, store_idle, store_base, store_ssize, store_stack,
        store_valgrind_stack_id, store_tracking_prev, store_tracking_next]
      simp +contextual
      repeat' (first | intro _ | apply And.intro)
      all_goals (first | exact hupd _ (by assumption) | simp_all)
    exact wpo_fatal hw h rfl
  | destroy_coro c =>
    have hw : wpo (destroy_coro env c) (fun _ _ => True)
        (fun _ w => w ≠ .head_has_prev) s := by
      simp only [destroy_coro, wpo_remove_coro, deallocate, wpo_bind, wpo_pure, wpo_ite,
        wpo_update, wpo_getState, wpo_emit, wpo_CHECK, wpo_checked_mprotect]
      simp +contextual
    exact absurd rfl (wpo_fatal hw h)

/-- Head invariant along runs that never use an address twice: in every state
reached from a fresh process by `convert_to_master`, `coro_spawn` and
`destroy_coro` calls in which no worker is created at an address that was
used before (and each is destroyed at most once, after its creation), the
head of the registry is null or has a null `tracking_prev`, and the call that
comes next does not die on the CHECK "Head coroutine should not have a prev"
of `insert_coro`.  The restriction to fresh addresses is essential: a worker
created at the address of a destroyed head breaks the invariant. -/
theorem registry_head_has_no_prev (env : Env) (w0 : Workers) (scheds0 : Ptr → Scheduler)
    (ks : List Call) (s : State) (b : Book)
    (hreach : replay env (State.init w0 scheds0) Book.empty ks = some (s, b)) :
    (s.all_coros = 0 ∨ s.w.tracking_prev s.all_coros = 0) ∧
    (∀ (k : Call) (s1 : State), k.run env s ≠ .fatal s1 .head_has_prev) := by
  have hinv : RegistryInv s b :=
    replay_induct env RegistryInv (registryInv_step env) ks _ _
      (registryInv_init w0 scheds0) s b hreach
  refine ⟨hinv.head_prev, fun k s1 hk => ?_⟩
  obtain ⟨h1, h2⟩ := head_check_failure env k s s1 hk
  exact h2 (hinv.head_prev.resolve_left h1)

/-- Instance of the head invariant at `s_spawned`. -/
theorem registry_head_has_no_prev_witness :
    (s_spawned.all_coros = 0 ∨ s_spawned.w.tracking_prev s_spawned.all_coros = 0) ∧
    (∀ (k : Call) (s1 : State), k.run env0 s_spawned ≠ .fatal s1 .head_has_prev) :=
  registry_head_has_no_prev env0 Workers.zero (fun _ => { current_thread := 1, nextId := 1 })
    [.convert_to_master 1, .coro_spawn 1 2 7 4096] s_spawned
    { masters := [1], spawned := [2], destroyed := [], handles := [(2, 4096)], freed := [] } rfl

/-- C9 (code bug): a destroyed head stays the head (`remove_coro` never
resets `all_coros`), so a new worker placed at the address of a destroyed
head is inserted in front of itself.  After `coro_spawn(1, 2, 7, 4096)`,
`destroy_coro(2)` and `coro_spawn(1, 2, 7, 4096)` for a new worker at the
same address, all three calls having returned, the head is worker `2` and its
`tracking_prev` is `2`, not null; the next `coro_spawn` (of worker `3`) and
the next `convert_to_master` both die on the CHECK "Head coroutine should not
have a prev". -/
theorem registry_head_check_fails_after_reuse :
    (coro_spawn env0 1 2 7 4096 s0).isOk = true ∧
    (destroy_coro env0 2 (coro_spawn env0 1 2 7 4096 s0).state).isOk = true ∧
    (destroy_coro env0 2 (coro_spawn env0 1 2 7 4096 s0).state).state.all_coros = 2 ∧
    (coro_spawn env0 1 2 7 4096
      (destroy_coro env0 2 (coro_spawn env0 1 2 7 4096 s0).state).state).isOk = true ∧
    s_reused.all_coros = 2 ∧ s_reused.w.tracking_prev 2 = 2 ∧
    (coro_spawn env0 1 3 7 4096 s_reused).why = some .head_has_prev ∧
    (convert_to_master env0 1 s_reused).why = some .head_has_prev := by
  decide!

/-! ## C3: the arena and the live workers -/

theorem arena_fold_none (evs : List Event) :
    ∀ out, allocated evs = [] → deallocated evs = [] → evs.foldl arenaStep out = out := by
  induction evs with
  | nil => intro out _ _; rfl
  | cons e es ih =>
    intro out ha hd
    cases e <;> simp_all [allocated, deallocated, arenaStep]

theorem arena_fold_alloc (evs : List Event) (r : Ptr) :
    ∀ out, allocated evs = [r] → deallocated evs = [] →
      evs.foldl arenaStep out = r :: out := by
  induction evs with
  | nil => intro out ha _; simp [allocated] at ha
  | cons e es ih =>
    intro out ha hd
    cases e <;> simp_all [allocated, deallocated, arenaStep]
    case allocate_aligned sz al r1 =>
      exact arena_fold_none es _ ha.2 hd

theorem arena_fold_dealloc (evs : List Event) (d : Ptr) :
    ∀ out, allocated evs = [] → deallocated evs = [d] →
      evs.foldl arenaStep out = out.erase d := by
  induction evs with
  | nil => intro out _ hd; simp [deallocated] at hd
  | cons e es ih =>
    intro out ha hd
    cases e <;> simp_all [allocated, deallocated, arenaStep]
    case deallocate r1 =>
      exact arena_fold_none es _ ha hd.2

theorem disciplinedFrom_append (t evs : List Event) :
    ∀ out, disciplinedFrom out (t ++ evs)
      = (disciplinedFrom out t && disciplinedFrom (t.foldl arenaStep out) evs) := by
  induction t with
  | nil => intro out; simp [disciplinedFrom]
  | cons e es ih =>
    intro out
    cases e <;> simp [disciplinedFrom, arenaStep, ih, Bool.and_assoc]

theorem disciplinedFrom_none (evs : List Event) :
    ∀ out, deallocated evs = [] → disciplinedFrom out evs = true := by
  induction evs with
  | nil => intro out _; rfl
  | cons e es ih =>
    intro out hd
    cases e <;> simp_all [deallocated, disciplinedFrom]

theorem disciplinedFrom_dealloc (evs : List Event) (d : Ptr) :
    ∀ out, allocated evs = [] → deallocated evs = [d] → d ∈ out →
      disciplinedFrom out evs = true := by
  induction evs with
  | nil => intro out _ hd; simp [deallocated] at hd
  | cons e es ih =>
    intro out ha hd hm
    cases e <;> simp_all [allocated, deallocated, disciplinedFrom]
    case deallocate r1 =>
      exact disciplinedFrom_none es _ hd.2

theorem mem_live_iff (b : Book) (x : Ptr) : x ∈ b.live ↔ x ∈ b.spawned ∧ x ∉ b.destroyed := by
  simp [Book.live]

theorem outstanding_append (t evs : List Event) :
    outstanding (t ++ evs) = evs.foldl arenaStep (outstanding t) := by
  simp [outstanding, List.foldl_append]

theorem disciplined_append (t evs : List Event) :
    disciplined (t ++ evs) = (disciplined t && disciplinedFrom (outstanding t) evs) := by
  simp [disciplined, outstanding, disciplinedFrom_append]

theorem arenaInv_convert (env : Env) (s s1 : State) (b : Book) (me p : Ptr)
    (hinv : ArenaInv s b) (e : MasterEffect env s me s1 p) (hfresh : p ∉ b.created) :
    ArenaInv s1 (b.note (.convert_to_master me) p (s1.trace.drop s.trace.length)) := by
  have hout : outstanding s1.trace = outstanding s.trace := by
    rw [e.trace, outstanding_append, arena_fold_none _ _ e.allocs e.deallocs]
  have hlive : ∀ c, c ∈ b.live → c ≠ p := by
    intro c hc hcp
    apply hfresh
    rw [← hcp]
    exact List.mem_append_left _ ((mem_live_iff b c).1 hc).1
  have hmas : ∀ c, c ∈ b.masters → c ≠ p := by
    intro c hc hcp
    apply hfresh
    rw [← hcp]
    exact List.mem_append_right _ hc
  have hb : ∀ c, c ∈ b.live → s1.w.base c = s.w.base c :=
    fun c hc => e.base_frame c (hlive c hc)
  refine ⟨?_, ?_, ?_, ?_, ?_, ?_, ?_, ?_, ?_⟩
  · rw [hout]; exact hinv.nodup
  · intro r
    rw [hout, hinv.regions r]
    constructor
    · rintro ⟨c, hc, h⟩; exact ⟨c, hc, by rw [hb c hc]; exact h⟩
    · rintro ⟨c, hc, h⟩; exact ⟨c, hc, by rw [← hb c hc]; exact h⟩
  · intro c1 h1 c2 h2 h
    have h1' : c1 ∈ b.live := h1
    have h2' : c2 ∈ b.live := h2
    rw [hb c1 h1', hb c2 h2'] at h
    exact hinv.inj c1 h1' c2 h2' h
  · intro c hc
    have hc' : c ∈ b.live := hc
    rw [hb c hc']; exact hinv.base_ne c hc'
  · intro c hc
    have hc' : c = p ∨ c ∈ b.masters := by simpa [Book.note] using hc
    rcases hc' with h | h
    · rw [h]; exact e.base
    · rw [e.base_frame c (hmas c h)]; exact hinv.master_base c h
  · intro c hc
    have hc' : c ∈ b.destroyed := hc
    exact (mem_created_note_convert b me p c _).2 (Or.inr (hinv.destroyed_created c hc'))
  · intro c hc
    have hc' : c ∈ b.live := hc
    rw [hb c hc']; exact hinv.handle c hc'
  · exact hinv.freed_handles
  · rw [e.trace, disciplined_append, hinv.disc, disciplinedFrom_none _ _ e.deallocs]; rfl

theorem arenaInv_spawn (env : Env) (hfr : ArenaFresh env) (s s1 : State) (b : Book)
    (me c f : Ptr) (ssize : Nat)
    (hinv : ArenaInv s b) (e : SpawnEffect env s me c f ssize s1) (hfresh : c ∉ b.created) :
    ArenaInv s1 (b.note (.coro_spawn me c f ssize) c (s1.trace.drop s.trace.length)) := by
  obtain ⟨r, hr⟩ : ∃ r, r = env.allocate_aligned s.trace ((ssize + 4096 * 2) % WORD) 4096 :=
    ⟨_, rfl⟩
  have hbase : s1.w.base c = r := by rw [hr]; exact e.base
  have hallocs : allocated (s1.trace.drop s.trace.length) = [r] := by rw [hr]; exact e.allocs
  have hrne : r ≠ 0 := by rw [hr]; exact e.handle_ne
  have hout : outstanding s1.trace = r :: outstanding s.trace := by
    rw [e.trace, outstanding_append, arena_fold_alloc _ _ _ hallocs e.deallocs]
  have hrn : r ∉ outstanding s.trace := by rw [hr]; exact hfr s.trace _ _
  have hlive : ∀ x, x ∈ b.live → x ≠ c := by
    intro x hx hxc
    apply hfresh
    rw [← hxc]
    exact List.mem_append_left _ ((mem_live_iff b x).1 hx).1
  have hmas : ∀ x, x ∈ b.masters → x ≠ c := by
    intro x hx hxc
    apply hfresh
    rw [← hxc]
    exact List.mem_append_right _ hx
  have hcd : c ∉ b.destroyed := fun h => hfresh (hinv.destroyed_created c h)
  have hb : ∀ x, x ∈ b.live → s1.w.base x = s.w.base x :=
    fun x hx => e.base_frame x (hlive x hx)
  have hmem : ∀ x, x ∈ (b.note (.coro_spawn me c f ssize) c
      (s1.trace.drop s.trace.length)).live ↔ x = c ∨ x ∈ b.live := by
    intro x
    simp only [mem_live_iff, Book.note, List.mem_cons]
    constructor
    · rintro ⟨h1 | h1, h2⟩
      · exact Or.inl h1
      · exact Or.inr ⟨h1, h2⟩
    · rintro (h | ⟨h1, h2⟩)
      · exact ⟨Or.inl h, h ▸ hcd⟩
      · exact ⟨Or.inr h1, h2⟩
  have hold : ∀ x, x ∈ b.live → s.w.base x ∈ outstanding s.trace :=
    fun x hx => (hinv.regions _).2 ⟨x, hx, rfl⟩
  refine ⟨?_, ?_, ?_, ?_, ?_, ?_, ?_, ?_, ?_⟩
  · rw [hout]; exact List.nodup_cons.2 ⟨hrn, hinv.nodup⟩
  · intro r1
    rw [hout, List.mem_cons]
    constructor
    · rintro (h | h)
      · exact ⟨c, (hmem c).2 (Or.inl rfl), by rw [hbase, h]⟩
      · obtain ⟨x, hx, hxb⟩ := (hinv.regions r1).1 h
        exact ⟨x, (hmem x).2 (Or.inr hx), by rw [hb x hx]; exact hxb⟩
    · rintro ⟨x, hx, hxb⟩
      rcases (hmem x).1 hx with h | h
      · left; rw [← hxb, h, hbase]
      · right; rw [← hxb, hb x h]; exact hold x h
  · intro c1 h1 c2 h2 h
    rcases (hmem c1).1 h1 with e1 | e1 <;> rcases (hmem c2).1 h2 with e2 | e2
    · rw [e1, e2]
    · exfalso
      rw [e1, hbase, hb c2 e2] at h
      exact hrn (h ▸ hold c2 e2)
    · exfalso
      rw [e2, hbase, hb c1 e1] at h
      exact hrn (h ▸ hold c1 e1)
    · rw [hb c1 e1, hb c2 e2] at h
      exact hinv.inj c1 e1 c2 e2 h
  · intro x hx
    rcases (hmem x).1 hx with h | h
    · rw [h, hbase]; exact hrne
    · rw [hb x h]; exact hinv.base_ne x h
  · intro x hx
    have hx' : x ∈ b.masters := hx
    rw [e.base_frame x (hmas x hx')]; exact hinv.master_base x hx'
  · intro x hx
    have hx' : x ∈ b.destroyed := hx
    exact (mem_created_note_spawn b me c f ssize c x _).2 (Or.inr (hinv.destroyed_created x hx'))
  · intro x hx
    have hh : (b.note (.coro_spawn me c f ssize) c (s1.trace.drop s.trace.length)).handles
        = (c, r) :: b.handles := by
      simp [Book.note, hallocs]
    rw [hh]
    rcases (hmem x).1 hx with h | h
    · rw [h, hbase]; exact List.mem_cons_self _ _
    · rw [hb x h]; exact List.mem_cons_of_mem _ (hinv.handle x h)
  · intro x r1 hx
    have hx' : (x, r1) ∈ b.freed := hx
    have hh : (b.note (.coro_spawn me c f ssize) c (s1.trace.drop s.trace.length)).handles
        = (c, r) :: b.handles := by
      simp [Book.note, hallocs]
    rw [hh]
    exact List.mem_cons_of_mem _ (hinv.freed_handles x r1 hx')
  · rw [e.trace, disciplined_append, hinv.disc, disciplinedFrom_none _ _ e.deallocs]; rfl
theorem arenaInv_destroy (env : Env) (s s1 : State) (b : Book) (c : Ptr)
    (hinv : ArenaInv s b) (e : DestroyEffect env s c s1)
    (hc : c ∈ b.created) (hcd : c ∉ b.destroyed) :
    ArenaInv s1 (b.note (.destroy_coro c) c (s1.trace.drop s.trace.length)) := by
  have hbase : s1.w.base = s.w.base := by
    rw [e.workers]; split <;> rfl
  have hmem : ∀ x, x ∈ (b.note (.destroy_coro c) c (s1.trace.drop s.trace.length)).live ↔
      x ∈ b.live ∧ x ≠ c := by
    intro x
    simp only [mem_live_iff, Book.note, List.mem_cons, not_or]
    tauto
  have hdc : ∀ x, x ∈ (b.note (.destroy_coro c) c (s1.trace.drop s.trace.length)).destroyed →
      x ∈ b.created := by
    intro x hx
    have hx' : x = c ∨ x ∈ b.destroyed := by simpa [Book.note] using hx
    rcases hx' with h | h
    · rw [h]; exact hc
    · exact hinv.destroyed_created x h
  by_cases hz : s.w.base c = 0
  · have hde : deallocated (s1.trace.drop s.trace.length) = [] := by
      rw [e.deallocs, if_pos hz]
    have hout : outstanding s1.trace = outstanding s.trace := by
      rw [e.trace, outstanding_append, arena_fold_none _ _ e.allocs hde]
    have hnl : c ∉ b.live := fun h => hinv.base_ne c h hz
    have hmem' : ∀ x, x ∈ (b.note (.destroy_coro c) c (s1.trace.drop s.trace.length)).live ↔
        x ∈ b.live := by
      intro x
      rw [hmem]
      exact ⟨fun h => h.1, fun h => ⟨h, fun e => hnl (e ▸ h)⟩⟩
    refine ⟨?_, ?_, ?_, ?_, ?_, hdc, ?_, ?_, ?_⟩
    · rw [hout]; exact hinv.nodup
    · intro r
      rw [hout, hinv.regions r, hbase]
      constructor
      · rintro ⟨x, hx, h⟩; exact ⟨x, (hmem' x).2 hx, h⟩
      · rintro ⟨x, hx, h⟩; exact ⟨x, (hmem' x).1 hx, h⟩
    · intro c1 h1 c2 h2 h
      rw [hbase] at h
      exact hinv.inj c1 ((hmem' c1).1 h1) c2 ((hmem' c2).1 h2) h
    · intro x hx
      rw [hbase]; exact hinv.base_ne x ((hmem' x).1 hx)
    · intro x hx
      have hx' : x ∈ b.masters := hx
      rw [hbase]; exact hinv.master_base x hx'
    · intro x hx
      rw [hbase]
      exact hinv.handle x ((hmem' x).1 hx)
    · intro x r hx
      have hx' : (x, r) ∈ b.freed := by simpa [Book.note, hde] using hx
      exact hinv.freed_handles x r hx'
    · rw [e.trace, disciplined_append, hinv.disc, disciplinedFrom_none _ _ hde]; rfl
  · have hde : deallocated (s1.trace.drop s.trace.length) = [s.w.base c] := by
      rw [e.deallocs, if_neg hz]
    have hout : outstanding s1.trace = (outstanding s.trace).erase (s.w.base c) := by
      rw [e.trace, outstanding_append, arena_fold_dealloc _ _ _ e.allocs hde]
    have hcl : c ∈ b.live := by
      rw [mem_live_iff]
      refine ⟨?_, hcd⟩
      rcases List.mem_append.1 hc with h | h
      · exact h
      · exact absurd (hinv.master_base c h) hz
    have hin : s.w.base c ∈ outstanding s.trace := (hinv.regions _).2 ⟨c, hcl, rfl⟩
    refine ⟨?_, ?_, ?_, ?_, ?_, hdc, ?_, ?_, ?_⟩
    · rw [hout]; exact hinv.nodup.erase _
    · intro r
      rw [hout, hinv.nodup.mem_erase_iff, hinv.regions r, hbase]
      constructor
      · rintro ⟨hne, x, hx, h⟩
        exact ⟨x, (hmem x).2 ⟨hx, fun e => hne (by rw [← h, e])⟩, h⟩
      · rintro ⟨x, hx, h⟩
        have hx' := (hmem x).1 hx
        refine ⟨fun e => hx'.2 (hinv.inj x hx'.1 c hcl (by rw [h, e])), x, hx'.1, h⟩
    · intro c1 h1 c2 h2 h
      rw [hbase] at h
      exact hinv.inj c1 ((hmem c1).1 h1).1 c2 ((hmem c2).1 h2).1 h
    · intro x hx
      rw [hbase]; exact hinv.base_ne x ((hmem x).1 hx).1
    · intro x hx
      have hx' : x ∈ b.masters := hx
      rw [hbase]; exact hinv.master_base x hx'
    · intro x hx
      rw [hbase]
      exact hinv.handle x ((hmem x).1 hx).1
    · intro x r hx
      have hx' : (x = c ∧ r = s.w.base c) ∨ (x, r) ∈ b.freed := by
        simpa [Book.note, hde] using hx
      rcases hx' with ⟨h1, h2⟩ | h
      · rw [h1, h2]; exact hinv.handle c hcl
      · exact hinv.freed_handles x r h
    · rw [e.trace, disciplined_append, hinv.disc,
        disciplinedFrom_dealloc _ _ _ e.allocs hde hin]; rfl

theorem arenaInv_step (env : Env) (hfr : ArenaFresh env) (s : State) (b : Book) (k : Call)
    (s1 : State) (hinv : ArenaInv s b) (ha : k.allowed env s b = true)
    (hr : k.run env s = .ok s1 ()) :
    ArenaInv s1 (b.note k (k.target env s) (s1.trace.drop s.trace.length)) := by
  cases k with
  | convert_to_master me =>
    obtain ⟨p, hp⟩ := run_convert_ok env me s s1 hr
    have e := convert_to_master_effect env me s s1 p hp
    have ht : (Call.convert_to_master me).target env s = p := e.target.symm
    have hfresh : p ∉ b.created := by
      rw [← ht]; simpa [Call.allowed] using ha
    rw [ht]
    exact arenaInv_convert env s s1 b me p hinv e hfresh
  | coro_spawn me c f ssize =>
    have e := coro_spawn_effect env me c f ssize s s1 hr
    have hfresh : c ∉ b.created := by simpa [Call.allowed, Call.target] using ha
    exact arenaInv_spawn env hfr s s1 b me c f ssize hinv e hfresh
  | destroy_coro c =>
    have e := destroy_coro_effect env c s s1 hr
    have hc : c ∈ b.created ∧ c ∉ b.destroyed := by simpa [Call.allowed] using ha
    exact arenaInv_destroy env s s1 b c hinv e hc.1 hc.2

theorem arenaInv_init (w0 : Workers) (scheds0 : Ptr → Scheduler) :
    ArenaInv (State.init w0 scheds0) Book.empty := by
  refine ⟨?_, ?_, ?_, ?_, ?_, ?_, ?_, ?_, ?_⟩ <;>
    simp [State.init, Book.empty, Book.live, outstanding, disciplined, disciplinedFrom]

/-- C3: with an arena that hands out fresh regions, after every sequence of
`convert_to_master` / `coro_spawn` / `destroy_coro` calls in which each worker
object is created once and destroyed at most once, the outstanding regions
are pairwise distinct and are exactly the `base` handles of the spawned
workers not yet destroyed; the `base` of such a worker is the very handle
`allocate_aligned` returned during its spawn; every pointer that was passed to
`deallocate` during the destruction of a worker is the handle returned during
the spawn of that worker; and no `deallocate` named a region that was not
outstanding (nothing released twice). -/
theorem round_trip_allocation (env : Env) (hfr : ArenaFresh env) (w0 : Workers)
    (scheds0 : Ptr → Scheduler) (ks : List Call) (s : State) (b : Book)
    (hreach : replay env (State.init w0 scheds0) Book.empty ks = some (s, b)) :
    (∀ r, r ∈ outstanding s.trace ↔ ∃ c, c ∈ b.live ∧ s.w.base c = r) ∧
    (outstanding s.trace).Nodup ∧
    (∀ c, c ∈ b.live → (c, s.w.base c) ∈ b.handles) ∧
    (∀ c r, (c, r) ∈ b.freed → (c, r) ∈ b.handles) ∧
    disciplined s.trace = true := by
  have hinv : ArenaInv s b :=
    replay_induct env ArenaInv (arenaInv_step env hfr) ks _ _
      (arenaInv_init w0 scheds0) s b hreach
  exact ⟨hinv.regions, hinv.nodup, hinv.handle, hinv.freed_handles, hinv.disc⟩
theorem mem_le_sum (l : List Nat) : ∀ x ∈ l, x ≤ l.sum := by
  induction l with
  | nil => intro x hx; cases hx
  | cons a l ih =>
    intro x hx
    rw [List.sum_cons]
    rcases List.mem_cons.1 hx with h | h
    · omega
    · have := ih x h; omega

theorem env0_fresh : ArenaFresh env0 := by
  intro t size alignment h
  have h1 : 4096 * ((outstanding t).sum + 1) ∈ outstanding t := h
  have := mem_le_sum _ _ h1
  omega

/-- Instance of C3 at `s_churned`: two spawns, one destroy. -/
theorem round_trip_allocation_witness :
    (∀ r, r ∈ outstanding s_churned.trace ↔
      ∃ c, c ∈ book_churned.live ∧ s_churned.w.base c = r) ∧
    (outstanding s_churned.trace).Nodup ∧
    (∀ c, c ∈ book_churned.live → (c, s_churned.w.base c) ∈ book_churned.handles) ∧
    (∀ c r, (c, r) ∈ book_churned.freed → (c, r) ∈ book_churned.handles) ∧
    disciplined s_churned.trace = true :=
  round_trip_allocation env0 env0_fresh Workers.zero
    (fun _ => { current_thread := 1, nextId := 1 })
    [.convert_to_master 1, .coro_spawn 1 2 7 4096, .coro_spawn 1 3 7 8192, .destroy_coro 2]
    s_churned book_churned rfl

/-! ## C11: the cyclic stack offset -/

theorem next_stack_offset_mod (env : Env) (o : Nat) :
    next_stack_offset env o = (o + to_size_t env.FLAGS_stack_offset) % 8192 := by
  unfold next_stack_offset
  have h : (64 * 128 - 1 : Nat) = 2 ^ 13 - 1 := by norm_num
  have hW : WORD = 8192 * 2251799813685248 := by
    show (2 : Nat) ^ 64 = 8192 * 2251799813685248
    norm_num
  rw [h, Nat.and_pow_two_sub_one_eq_mod, hW, Nat.mod_mul_right_mod]

theorem to_size_t_emod (i : Int) : ((to_size_t i : Nat) : Int) % 8192 = i % 8192 := by
  unfold to_size_t
  have hW : ((WORD : Nat) : Int) = 18446744073709551616 := by
    show (((2 : Nat) ^ 64 : Nat) : Int) = 18446744073709551616
    norm_num
  rw [hW]
  omega

theorem next_stack_offset_int (env : Env) (o : Nat) :
    ((next_stack_offset env o : Nat) : Int) = ((o : Int) + env.FLAGS_stack_offset) % 8192 := by
  rw [next_stack_offset_mod]
  have h := to_size_t_emod env.FLAGS_stack_offset
  omega

theorem offset_step (env : Env) (s : State) (b : Book) (k : Call) (s1 : State)
    (hinv : (s.current_stack_offset : Int) = ((b.spawns : Nat) : Int) * env.FLAGS_stack_offset % 8192)
    (hr : k.run env s = .ok s1 ()) :
    (s1.current_stack_offset : Int)
      = (((b.note k (k.target env s) (s1.trace.drop s.trace.length)).spawns : Nat) : Int)
          * env.FLAGS_stack_offset % 8192 := by
  cases k with
  | convert_to_master me =>
    obtain ⟨p, hp⟩ := run_convert_ok env me s s1 hr
    rw [(convert_to_master_effect env me s s1 p hp).offset]; exact hinv
  | coro_spawn me c f ssize =>
    rw [(coro_spawn_effect env me c f ssize s s1 hr).offset, next_stack_offset_int, hinv]
    have hk : (((b.note (.coro_spawn me c f ssize) c (s1.trace.drop s.trace.length)).spawns
        : Nat) : Int) * env.FLAGS_stack_offset
        = ((b.spawns : Nat) : Int) * env.FLAGS_stack_offset + env.FLAGS_stack_offset := by
      simp only [Book.spawns, Book.note, List.length_cons]
      push_cast
      ring
    show _ = (((b.note (.coro_spawn me c f ssize) c (s1.trace.drop s.trace.length)).spawns
        : Nat) : Int) * env.FLAGS_stack_offset % 8192
    rw [hk]
    omega
  | destroy_coro c =>
    rw [(destroy_coro_effect env c s s1 hr).offset]; exact hinv

/-- C11: in every state reached from a fresh process (offset 0) the offset is
below 8192 and equals `spawns * FLAGS_stack_offset` modulo 8192; every
returning `coro_spawn` replaces it by `(old + FLAGS_stack_offset) mod 8192`;
with the default stride 64 it is a multiple of 64, equals
`(64 * k) mod 8192` after `k` spawns, and is 0 whenever `k` is a multiple of
128. -/
theorem stack_offset_cyclic (env : Env) (w0 : Workers) (scheds0 : Ptr → Scheduler)
    (ks : List Call) (s : State) (b : Book)
    (hreach : replay env (State.init w0 scheds0) Book.empty ks = some (s, b)) :
    s.current_stack_offset < 8192 ∧
    (s.current_stack_offset : Int) = ((b.spawns : Nat) : Int) * env.FLAGS_stack_offset % 8192 ∧
    (∀ me c f ssize s1, coro_spawn env me c f ssize s = .ok s1 () →
      (s1.current_stack_offset : Int)
        = ((s.current_stack_offset : Int) + env.FLAGS_stack_offset) % 8192 ∧
      s1.current_stack_offset < 8192) ∧
    (env.FLAGS_stack_offset = 64 →
      s.current_stack_offset = (64 * b.spawns) % 8192 ∧
      s.current_stack_offset % 64 = 0 ∧
      (b.spawns % 128 = 0 → s.current_stack_offset = 0)) := by
  have hlt := replay_offset_lt env w0 scheds0 ks s b hreach
  have hinv : (s.current_stack_offset : Int)
      = ((b.spawns : Nat) : Int) * env.FLAGS_stack_offset % 8192 :=
    replay_induct env
      (fun s b => (s.current_stack_offset : Int)
        = ((b.spawns : Nat) : Int) * env.FLAGS_stack_offset % 8192)
      (fun s b k s1 h _ hr => offset_step env s b k s1 h hr) ks _ _
      (by simp [State.init, Book.empty, Book.spawns]) s b hreach
  refine ⟨hlt, hinv, ?_, ?_⟩
  · intro me c f ssize s1 h
    have e := coro_spawn_effect env me c f ssize s s1 h
    rw [e.offset]
    exact ⟨next_stack_offset_int env _, next_stack_offset_lt env _⟩
  · intro h64
    rw [h64] at hinv
    generalize b.spawns = k at *
    generalize s.current_stack_offset = o at *
    omega

set_option maxRecDepth 100000 in
/-- Instance of C11 at `s_churned`: two spawns at the default stride. -/
theorem stack_offset_cyclic_witness :
    s_churned.current_stack_offset = 128 ∧
    Nat.iterate (next_stack_offset env0) 128 0 = 0 ∧
    s_churned.current_stack_offset < 8192 ∧
    (env0.FLAGS_stack_offset = 64 →
      s_churned.current_stack_offset = (64 * book_churned.spawns) % 8192 ∧
      s_churned.current_stack_offset % 64 = 0 ∧
      (book_churned.spawns % 128 = 0 → s_churned.current_stack_offset = 0)) :=
  have h := stack_offset_cyclic env0 Workers.zero (fun _ => { current_thread := 1, nextId := 1 })
    [.convert_to_master 1, .coro_spawn 1 2 7 4096, .coro_spawn 1 3 7 8192, .destroy_coro 2]
    s_churned book_churned rfl
  ⟨by decide, by decide, h.1, h.2.2.2⟩

/-! ## C12: the live-worker counter -/

theorem mem_alive_iff (b : Book) (x : Ptr) : x ∈ b.alive ↔ x ∈ b.created ∧ x ∉ b.destroyed := by
  simp [Book.alive]

theorem alive_length_create (l : List Ptr) (d : List Ptr) (p : Ptr) (l1 : List Ptr)
    (hp : p ∉ d) (hperm : l1.Perm (p :: l)) :
    (l1.filter fun c => decide (c ∉ d)).length
      = (l.filter fun c => decide (c ∉ d)).length + 1 := by
  rw [(hperm.filter _).length_eq, List.filter_cons_of_pos (by simpa using hp), List.length_cons]

theorem alive_length_destroy (l : List Ptr) (d : List Ptr) (c : Ptr)
    (hl : l.Nodup) (hc : c ∈ l) (hcd : c ∉ d) :
    (l.filter fun x => decide (x ∉ c :: d)).length + 1
      = (l.filter fun x => decide (x ∉ d)).length := by
  have hn : (l.filter fun x => decide (x ∉ d)).Nodup := hl.filter _
  have hm : c ∈ l.filter fun x => decide (x ∉ d) := by
    simp [List.mem_filter, hc, hcd]
  have he : (l.filter fun x => decide (x ∉ c :: d))
      = (l.filter fun x => decide (x ∉ d)).erase c := by
    rw [hn.erase_eq_filter, List.filter_filter]
    congr 1
    funext x
    by_cases hx : x = c <;> simp [hx, hcd]
  rw [he, List.length_erase_of_mem hm]
  have : 0 < (l.filter fun x => decide (x ∉ d)).length := List.length_pos_of_mem hm
  omega

theorem word_sub_one_step (n : Nat) (hn : 0 < n) :
    (n % WORD + (WORD - 1)) % WORD = (n - 1) % WORD := by
  have hW : WORD = 18446744073709551616 := by
    show (2 : Nat) ^ 64 = 18446744073709551616
    norm_num
  rw [hW]
  omega

theorem word_add_one_step (n : Nat) : (n % WORD + 1) % WORD = (n + 1) % WORD := by
  have hW : WORD = 18446744073709551616 := by
    show (2 : Nat) ^ 64 = 18446744073709551616
    norm_num
  rw [hW]
  omega

theorem counterInv_create (s s1 : State) (b b1 : Book) (p : Ptr)
    (hinv : CounterInv s b) (hp0 : p ≠ 0) (hfresh : p ∉ b.created)
    (hperm : b1.created.Perm (p :: b.created)) (hd : b1.destroyed = b.destroyed)
    (ht : s1.total_coros = (s.total_coros + 1) % WORD) : CounterInv s1 b1 := by
  have hpd : p ∉ b.destroyed := fun h => hfresh (hinv.destroyed_created p h)
  refine ⟨?_, ?_, ?_, ?_⟩
  · exact hperm.nodup_iff.2 (List.nodup_cons.2 ⟨hfresh, hinv.created_nodup⟩)
  · intro h0
    rcases List.mem_cons.1 (hperm.mem_iff.1 h0) with h | h
    · exact hp0 h.symm
    · exact hinv.created_ne h
  · intro c hc
    rw [hd] at hc
    exact hperm.mem_iff.2 (List.mem_cons_of_mem _ (hinv.destroyed_created c hc))
  · rw [ht, hinv.total, word_add_one_step]
    congr 1
    unfold Book.alive
    rw [hd]
    exact (alive_length_create b.created b.destroyed p b1.created hpd hperm).symm

theorem counterInv_destroy (s s1 : State) (b b1 : Book) (c : Ptr)
    (hinv : CounterInv s b) (hc : c ∈ b.created) (hcd : c ∉ b.destroyed)
    (hcr : b1.created = b.created) (hd : b1.destroyed = c :: b.destroyed)
    (ht : s1.total_coros = (s.total_coros + (WORD - 1)) % WORD) : CounterInv s1 b1 := by
  have hlen := alive_length_destroy b.created b.destroyed c hinv.created_nodup hc hcd
  refine ⟨?_, ?_, ?_, ?_⟩
  · rw [hcr]; exact hinv.created_nodup
  · rw [hcr]; exact hinv.created_ne
  · intro x hx
    rw [hd] at hx
    rw [hcr]
    rcases List.mem_cons.1 hx with h | h
    · rw [h]; exact hc
    · exact hinv.destroyed_created x h
  · have hal : b1.alive.length + 1 = b.alive.length := by
      unfold Book.alive
      rw [hcr, hd]
      exact hlen
    rw [ht, hinv.total, word_sub_one_step _ (by omega)]
    congr 1
    omega

theorem counterInv_step (env : Env) (s : State) (b : Book) (k : Call) (s1 : State)
    (hinv : CounterInv s b) (ha : k.allowed env s b = true) (hr : k.run env s = .ok s1 ()) :
    CounterInv s1 (b.note k (k.target env s) (s1.trace.drop s.trace.length)) := by
  cases k with
  | convert_to_master me =>
    obtain ⟨p, hp⟩ := run_convert_ok env me s s1 hr
    have e := convert_to_master_effect env me s s1 p hp
    have ht : (Call.convert_to_master me).target env s = p := e.target.symm
    have hfresh : p ∉ b.created := by
      rw [← ht]; simpa [Call.allowed] using ha
    have hp0 : p ≠ 0 := by
      by_cases h0 : me = 0
      · exact e.fresh_ne h0
      · have := e.target; rw [if_neg h0] at this; rw [this]; exact h0
    rw [ht]
    refine counterInv_create s s1 b _ p hinv hp0 hfresh ?_ rfl e.total
    show (b.spawned ++ p :: b.masters).Perm (p :: (b.spawned ++ b.masters))
    exact List.perm_middle
  | coro_spawn me c f ssize =>
    have e := coro_spawn_effect env me c f ssize s s1 hr
    have hfresh : c ∉ b.created := by simpa [Call.allowed, Call.target] using ha
    exact counterInv_create s s1 b _ c hinv e.c_ne hfresh (List.Perm.refl _) rfl e.total
  | destroy_coro c =>
    have e := destroy_coro_effect env c s s1 hr
    have hc : c ∈ b.created ∧ c ∉ b.destroyed := by simpa [Call.allowed] using ha
    exact counterInv_destroy s s1 b _ c hinv hc.1 hc.2 rfl rfl e.total

theorem counterInv_init (w0 : Workers) (scheds0 : Ptr → Scheduler) :
    CounterInv (State.init w0 scheds0) Book.empty := by
  refine ⟨?_, ?_, ?_, ?_⟩ <;>
    simp [State.init, Book.empty, Book.created, Book.alive]

theorem length_lt_of_addresses (l : List Ptr) (hn : l.Nodup) (h0 : 0 ∉ l)
    (hb : ∀ c, c ∈ l → c < WORD) : l.length < WORD := by
  have hsub : l.toFinset ⊆ Finset.Ico 1 WORD := by
    intro x hx
    have hx' : x ∈ l := List.mem_toFinset.1 hx
    have hx0 : x ≠ 0 := fun e => h0 (e ▸ hx')
    exact Finset.mem_Ico.2 ⟨Nat.pos_of_ne_zero hx0, hb x hx'⟩
  have hcard := Finset.card_le_card hsub
  rw [List.toFinset_card_of_nodup hn, Nat.card_Ico] at hcard
  have hW : 0 < WORD := by
    show 0 < (2 : Nat) ^ 64
    norm_num
  omega

theorem master_base_null (env : Env) (w0 : Workers) (scheds0 : Ptr → Scheduler)
    (ks : List Call) (s : State) (b : Book)
    (hreach : replay env (State.init w0 scheds0) Book.empty ks = some (s, b)) :
    ∀ c, c ∈ b.masters → s.w.base c = 0 := by
  refine replay_induct env (fun s b => ∀ c, c ∈ b.masters → s.w.base c = 0) ?_ ks _ _ ?_ s b
    hreach
  · intro s b k s1 hinv ha hr
    cases k with
    | convert_to_master me =>
      obtain ⟨p, hp⟩ := run_convert_ok env me s s1 hr
      have e := convert_to_master_effect env me s s1 p hp
      have ht : (Call.convert_to_master me).target env s = p := e.target.symm
      rw [ht]
      intro c hc
      have hc' : c = p ∨ c ∈ b.masters := by simpa [Book.note] using hc
      by_cases hcp : c = p
      · rw [hcp]; exact e.base
      · rw [e.base_frame c hcp]; exact hinv c (hc'.resolve_left hcp)
    | coro_spawn me c f ssize =>
      have e := coro_spawn_effect env me c f ssize s s1 hr
      have hfresh : c ∉ b.created := by simpa [Call.allowed, Call.target] using ha
      intro x hx
      have hx' : x ∈ b.masters := hx
      have hxc : x ≠ c := fun h => hfresh (h ▸ List.mem_append_right _ hx')
      rw [e.base_frame x hxc]; exact hinv x hx'
    | destroy_coro c =>
      have e := destroy_coro_effect env c s s1 hr
      intro x hx
      have hx' : x ∈ b.masters := hx
      have hb : s1.w.base = s.w.base := by rw [e.workers]; split <;> rfl
      rw [hb]; exact hinv x hx'
  · intro c hc
    simp [Book.empty] at hc

theorem destroy_coro_null_base_isOk (env : Env) (c : Ptr) (s : State) (hz : s.w.base c = 0) :
    (destroy_coro env c s).isOk = true := by
  apply isOk_of_wpo
  simp only [destroy_coro, wpo_remove_coro, deallocate, wpo_bind, wpo_pure, wpo_ite, wpo_update,
    wpo_getState, wpo_emit, wpo_CHECK, wpo_checked_mprotect]
  simp +contextual [hz]

/-- C12: in every state reached from a fresh process (`total_coros = 0`) by
`convert_to_master` / `coro_spawn` / `destroy_coro` calls in which each worker
object is created once and destroyed at most once and only after it was
created, `total_coros` is the number of objects created (masters included)
and not yet destroyed, as a `size_t`, hence exactly that number for objects at
addresses below `2 ^ 64`; a master has a null `base`; and for a worker with a
null `base` `destroy_coro` returns, decrements `total_coros` by one, leaves
every worker object and the registry head as they are, calls no `mprotect`
and no `deallocate`. -/
theorem live_worker_counter (env : Env) (w0 : Workers) (scheds0 : Ptr → Scheduler)
    (ks : List Call) (s : State) (b : Book)
    (hreach : replay env (State.init w0 scheds0) Book.empty ks = some (s, b)) :
    s.total_coros = b.alive.length % WORD ∧
    ((∀ c, c ∈ b.created → c < WORD) → s.total_coros = b.alive.length) ∧
    (∀ c, c ∈ b.masters → s.w.base c = 0) ∧
    (∀ c, s.w.base c = 0 → ∃ s1, destroy_coro env c s = .ok s1 () ∧
      s1.total_coros = (s.total_coros + (WORD - 1)) % WORD ∧
      (0 < s.total_coros → s1.total_coros + 1 = s.total_coros) ∧
      s1.w = s.w ∧ s1.all_coros = s.all_coros ∧
      (∀ a l p, Event.mprotect a l p ∉ s1.trace.drop s.trace.length) ∧
      deallocated (s1.trace.drop s.trace.length) = []) := by
  have hinv : CounterInv s b :=
    replay_induct env CounterInv (counterInv_step env) ks _ _
      (counterInv_init w0 scheds0) s b hreach
  have hW : WORD = 18446744073709551616 := by
    show (2 : Nat) ^ 64 = 18446744073709551616
    norm_num
  refine ⟨hinv.total, fun hb => ?_, master_base_null env w0 scheds0 ks s b hreach,
    fun c hz => ?_⟩
  · have h1 := length_lt_of_addresses b.created hinv.created_nodup hinv.created_ne hb
    have h2 : b.alive.length ≤ b.created.length := List.length_filter_le _ _
    rw [hinv.total, Nat.mod_eq_of_lt (Nat.lt_of_le_of_lt h2 h1)]
  · have hok := destroy_coro_null_base_isOk env c s hz
    cases hx : destroy_coro env c s with
    | fatal s1 w => rw [hx] at hok; exact absurd hok (by simp [Outcome.isOk])
    | ok s1 u =>
      have e := destroy_coro_effect env c s s1 hx
      have ht := e.total
      have hlt : s.total_coros < 18446744073709551616 := by
        rw [hinv.total, hW]; exact Nat.mod_lt _ (by norm_num)
      refine ⟨s1, rfl, ht, fun hpos => ?_, ?_, e.head, e.mprotects hz, ?_⟩
      · rw [ht, hW]; omega
      · rw [e.workers, if_pos hz]
      · rw [e.deallocs, if_pos hz]

/-- Instance of C12 at `s_churned`: master `1` and worker `3` are alive, and
destroying the master touches neither registry nor arena. -/
theorem live_worker_counter_witness :
    s_churned.total_coros = 2 ∧ book_churned.alive = [3, 1] ∧
    s_churned.total_coros = book_churned.alive.length ∧
    (∃ s1, destroy_coro env0 1 s_churned = .ok s1 () ∧
      s1.total_coros = (s_churned.total_coros + (WORD - 1)) % WORD ∧
      (0 < s_churned.total_coros → s1.total_coros + 1 = s_churned.total_coros) ∧
      s1.w = s_churned.w ∧ s1.all_coros = s_churned.all_coros ∧
      (∀ a l p, Event.mprotect a l p ∉ s1.trace.drop s_churned.trace.length) ∧
      deallocated (s1.trace.drop s_churned.trace.length) = []) :=
  have h := live_worker_counter env0 Workers.zero (fun _ => { current_thread := 1, nextId := 1 })
    [.convert_to_master 1, .coro_spawn 1 2 7 4096, .coro_spawn 1 3 7 8192, .destroy_coro 2]
    s_churned book_churned rfl
  ⟨by decide, by decide, h.2.1 (by decide), h.2.2.2 1 (by decide)⟩

end Grappa
